import Mathlib

/-!
Verification development for the Power BI dashboard consolidation tool.

The definitions below are a shallow embedding of the similarity engine of
the repository (src/analyzers/similarity.py, src/analyzers/metadata_processor.py,
src/models.py, src/main.py).  Python floats are modelled by exact rationals
(`ℚ`); Python sets of strings by `Finset String`; Python dicts by association
lists or explicit lookup functions.  Only the record fields actually read by
the similarity engine are carried in the profile structures.
-/

namespace PBI

/-! ### Data model (models.py) -/

/-- `VisualElement` (models.py): only the fields read by the engine
(`visual_type`, `data_fields`, `page_name`); presentation-only fields
(title, position, chart properties) are omitted. -/
structure VisualElement where
  visual_type : String
  data_fields : List String
  page_name : String
deriving DecidableEq

/-- `DAXMeasure` (models.py): fields read by the engine. -/
structure DAXMeasure where
  measure_name : String
  dax_formula : String
  table_name : String
deriving DecidableEq

/-- `DataTable` (models.py): the engine reads only `table_name`. -/
structure DataTable where
  table_name : String
deriving DecidableEq

/-- `DashboardProfile` (models.py): fields read by the similarity engine. -/
structure DashboardProfile where
  dashboard_id : String
  dashboard_name : String
  visual_elements : List VisualElement
  measures : List DAXMeasure
  tables : List DataTable
deriving DecidableEq

/-- `SimilarityBreakdown` (models.py). -/
structure SimilarityBreakdown where
  measures_score : ℚ
  visuals_score : ℚ
  data_model_score : ℚ
  layout_score : ℚ
  filters_score : ℚ
deriving DecidableEq

/-- `SimilarityScore` (models.py), without the timestamp. -/
structure SimilarityScore where
  dashboard1_id : String
  dashboard2_id : String
  dashboard1_name : String
  dashboard2_name : String
  total_score : ℚ
  breakdown : SimilarityBreakdown
deriving DecidableEq

/-- `ConsolidationRecommendation` (models.py); the free-text `reason`
is omitted (it is a formatted template carrying no further data). -/
structure ConsolidationRecommendation where
  action : String
  effort_estimate : String
  priority : Int
deriving DecidableEq

/-- `ConsolidationGroup` (models.py); the member ids are kept as the set
computed by the traversal (the source converts that set to a list in
arbitrary order). -/
structure ConsolidationGroup where
  group_id : String
  dashboard_ids : Finset String
  dashboard_names : List String
  average_similarity : ℚ
  recommendation : ConsolidationRecommendation

/-! ### Shared helpers -/

/-- Python `sum(xs) / len(xs) if xs else 0.0`. -/
def listAvg (l : List ℚ) : ℚ := if l = [] then 0 else l.sum / l.length

/-- Jaccard similarity with the guard used throughout the source:
`overlap / total_unique if total_unique > 0 else 0.0`. -/
def jaccardQ (s1 s2 : Finset String) : ℚ :=
  if 0 < (s1 ∪ s2).card then ((s1 ∩ s2).card : ℚ) / ((s1 ∪ s2).card : ℚ) else 0

/-- Python `str.lower()` as per-character ASCII lowercasing, defined
structurally over the character list (equivalent to `String.toLower`,
which is defined by well-founded recursion and therefore does not
reduce). -/
def lowerStr (s : String) : String := ⟨s.data.map Char.toLower⟩

/-- Python `str.upper()` as per-character ASCII uppercasing. -/
def upperStr (s : String) : String := ⟨s.data.map Char.toUpper⟩

/-- Boolean test that `pat` occurs at the head of `s`. -/
def prefixB : List Char → List Char → Bool
  | [], _ => true
  | _ :: _, [] => false
  | a :: as, b :: bs => a == b && prefixB as bs

/-- Boolean test for Python `pat in s` (contiguous substring). -/
def substrB (pat : List Char) : List Char → Bool
  | [] => prefixB pat []
  | c :: rest => prefixB pat (c :: rest) || substrB pat rest

namespace MetadataProcessor

/-! ### Formula analyzer (metadata_processor.py) -/

/-- `MetadataProcessor._load_dax_functions`: the catalog of DAX function
names (a Python set; its iteration order is irrelevant downstream because
the matched names are consumed as a set). -/
def dax_functions : List String :=
  ["SUM", "SUMX", "AVERAGE", "AVERAGEX", "COUNT", "COUNTX", "COUNTA", "COUNTAX",
   "COUNTROWS", "DISTINCTCOUNT", "MIN", "MAX", "CALCULATE", "FILTER",
   "ALL", "ALLEXCEPT", "VALUES", "DISTINCT", "RELATED", "RELATEDTABLE",
   "DATEADD", "DATESYTD", "TOTALYTD", "SAMEPERIODLASTYEAR", "PARALLELPERIOD",
   "FORMAT", "CONCATENATE", "LEFT", "RIGHT", "MID", "FIND", "SUBSTITUTE",
   "IF", "SWITCH", "AND", "OR", "NOT", "BLANK", "ISBLANK", "ISERROR",
   "DIVIDE", "ROUNDUP", "ROUNDDOWN", "ROUND", "INT", "MOD", "ABS",
   "RANKX", "TOPN", "EARLIER", "EARLIEST", "HASONEVALUE", "SELECTEDVALUE"]

/-- Count of leftmost, non-overlapping occurrences of any of the literal
alternatives, mirroring `len(re.findall(alt1|alt2|..., s))` for non-empty
literal alternatives: at each position the first alternative (in list
order) that matches is consumed whole, otherwise scanning advances one
character. -/
def scanCount (alts : List (List Char)) : List Char → Nat
  | [] => 0
  | c :: rest =>
    match alts.find? fun a => prefixB a (c :: rest) with
    | some a => 1 + scanCount alts (List.drop (a.length - 1) rest)
    | none => scanCount alts rest
termination_by s => s.length
decreasing_by
  · simp only [List.length_drop, List.length_cons]
    omega
  · simp only [List.length_cons]
    omega

/-- Length of a match of the regex `\([^()]*\([^()]*\)` at the head of
`s` (the character class excludes parentheses, so greedy matching needs
no backtracking). -/
def nestedMatchLen (s : List Char) : Option Nat :=
  match s with
  | '(' :: r1 =>
    let a := r1.takeWhile fun ch => !(ch == '(') && !(ch == ')')
    match r1.drop a.length with
    | '(' :: r2 =>
      let b := r2.takeWhile fun ch => !(ch == '(') && !(ch == ')')
      match r2.drop b.length with
      | ')' :: _ => some (a.length + b.length + 3)
      | _ => none
    | _ => none
  | _ => none

/-- Count of leftmost, non-overlapping matches of `\([^()]*\([^()]*\)`,
mirroring `len(re.findall(r'\([^()]*\([^()]*\)', formula))` (every match
has length at least 3). -/
def scanNested : List Char → Nat
  | [] => 0
  | c :: rest =>
    match nestedMatchLen (c :: rest) with
    | some n => 1 + scanNested (List.drop (n - 1) rest)
    | none => scanNested rest
termination_by s => s.length
decreasing_by
  · simp only [List.length_drop, List.length_cons]
    omega
  · simp only [List.length_cons]
    omega

/-- Result of `analyze_dax_formula` restricted to the keys consumed by
`compare_measures` (`used_functions` and `complexity_indicators`). -/
structure DaxAnalysis where
  used_functions : List String
  complexity_indicators : List (String × Nat)
deriving DecidableEq

/-- The `complexity_indicators` dict of `analyze_dax_formula`. -/
def complexityIndicators (formula : String) : List (String × Nat) :=
  let fu := (upperStr formula).data
  [("nested_functions", scanNested formula.data),
   ("filter_contexts", scanCount (["CALCULATE", "FILTER", "ALL"].map String.data) fu),
   ("time_intelligence",
     scanCount (["DATEADD", "DATESYTD", "TOTALYTD", "SAMEPERIODLASTYEAR"].map String.data) fu),
   ("iterators", scanCount (["SUMX", "AVERAGEX", "COUNTX", "RANKX"].map String.data) fu),
   ("logical_functions", scanCount (["IF", "SWITCH", "AND", "OR", "NOT"].map String.data) fu)]

/-- `MetadataProcessor.analyze_dax_formula`: for an empty formula the
source returns an error dict, whose `used_functions` and
`complexity_indicators` keys are read back with empty defaults by
`compare_measures`; function detection is case-insensitive substring
matching against the catalog. -/
def analyze_dax_formula (formula : String) : DaxAnalysis :=
  if formula = "" then ⟨[], []⟩
  else
    ⟨dax_functions.filter fun f => substrB f.data (upperStr formula).data,
     complexityIndicators formula⟩

/-- `MetadataProcessor._calculate_function_similarity`. -/
def functionSimilarity (functions1 functions2 : List String) : ℚ :=
  if functions1 = [] ∧ functions2 = [] then 1
  else if functions1 = [] ∨ functions2 = [] then 0
  else jaccardQ functions1.toFinset functions2.toFinset

/-- The per-indicator similarity inside
`MetadataProcessor._calculate_structure_similarity`'s loop. -/
def indicatorSim (val1 val2 : Nat) : ℚ :=
  if val1 = 0 ∧ val2 = 0 then 1
  else if val1 = 0 ∨ val2 = 0 then 0
  else 1 - |(val1 : ℚ) - (val2 : ℚ)| / max (val1 : ℚ) (val2 : ℚ)

/-- Dict read `indicators.get(key, 0)` on an association list. -/
def lookup0 : List (String × Nat) → String → Nat
  | [], _ => 0
  | p :: rest, k => if p.1 = k then p.2 else lookup0 rest k

/-- `all_keys = set(indicators1.keys()).union(set(indicators2.keys()))`. -/
def indicatorKeys (ind1 ind2 : List (String × Nat)) : List String :=
  ((ind1.map Prod.fst) ++ (ind2.map Prod.fst)).dedup

/-- `MetadataProcessor._calculate_structure_similarity`.  Note that the
source short-circuits to 1.0 only when BOTH dicts are empty; there is no
early return when exactly one is empty. -/
def structureSimilarity (ind1 ind2 : List (String × Nat)) : ℚ :=
  if ind1 = [] ∧ ind2 = [] then 1
  else listAvg ((indicatorKeys ind1 ind2).map fun k =>
    indicatorSim (lookup0 ind1 k) (lookup0 ind2 k))

/-- The whitespace class removed by `re.sub(r'\s+', '', ...)` (ASCII). -/
def isPySpace (c : Char) : Bool :=
  c == ' ' || c == '\t' || c == '\n' || c == '\r' || c == Char.ofNat 11 || c == Char.ofNat 12

/-- Normalisation in `_calculate_string_similarity`: uppercase, then strip
all whitespace. -/
def normalizeFormula (f : String) : List Char :=
  (upperStr f).data.filter fun c => !(isPySpace c)

/-- Positional character agreement over the shorter length:
`sum(1 for i in range(min_len) if norm1[i] == norm2[i])`. -/
def posMatchCount : List Char → List Char → Nat
  | a :: as, b :: bs => (if a = b then 1 else 0) + posMatchCount as bs
  | _, _ => 0

/-- `MetadataProcessor._calculate_string_similarity`. -/
def stringSimilarity (formula1 formula2 : String) : ℚ :=
  if formula1 = "" ∧ formula2 = "" then 1
  else if formula1 = "" ∨ formula2 = "" then 0
  else
    let norm1 := normalizeFormula formula1
    let norm2 := normalizeFormula formula2
    if norm1 = norm2 then 1
    else
      let maxLen := max norm1.length norm2.length
      if maxLen = 0 then 1
      else (posMatchCount norm1 norm2 : ℚ) / (maxLen : ℚ)

/-- Result record of `MetadataProcessor.compare_measures` (the similarity
fields; the raw analyses are also returned by the source but never read
by the engine). -/
structure MeasureComparison where
  overall_similarity : ℚ
  function_similarity : ℚ
  structure_similarity : ℚ
  string_similarity : ℚ
deriving DecidableEq

/-- `MetadataProcessor.compare_measures`. -/
def compare_measures (measure1 measure2 : DAXMeasure) : MeasureComparison :=
  let analysis1 := analyze_dax_formula measure1.dax_formula
  let analysis2 := analyze_dax_formula measure2.dax_formula
  let function_sim := functionSimilarity analysis1.used_functions analysis2.used_functions
  let structure_sim :=
    structureSimilarity analysis1.complexity_indicators analysis2.complexity_indicators
  let string_sim := stringSimilarity measure1.dax_formula measure2.dax_formula
  ⟨function_sim * 0.4 + structure_sim * 0.3 + string_sim * 0.3,
   function_sim, structure_sim, string_sim⟩

end MetadataProcessor

namespace SimilarityEngine

/-! ### Similarity engine (similarity.py) -/

/-- `SimilarityEngine.default_weights`. -/
structure Weights where
  measures : ℚ
  visuals : ℚ
  data_model : ℚ
  layout : ℚ
deriving DecidableEq

def default_weights : Weights := ⟨0.4, 0.3, 0.2, 0.1⟩

/-- `consolidation_thresholds['merge']`. -/
def merge_threshold : ℚ := 0.85
/-- `consolidation_thresholds['review']`. -/
def review_threshold : ℚ := 0.70
/-- `consolidation_thresholds['ignore']` (unused by the engine logic). -/
def ignore_threshold : ℚ := 0.50

/-- Lower-cased measure-name set of a dashboard. -/
def measureNames (ms : List DAXMeasure) : Finset String :=
  (ms.map fun m => lowerStr m.measure_name).toFinset

/-- The `formula_similarities` list of `_compare_measures`: the nested
loops over `measures1 × measures2` keeping pairs with equal
case-insensitive names. -/
def matchedFormulaSims (measures1 measures2 : List DAXMeasure) : List ℚ :=
  measures1.flatMap fun m1 =>
    (measures2.filter fun m2 => lowerStr m1.measure_name == lowerStr m2.measure_name).map
      fun m2 => (MetadataProcessor.compare_measures m1 m2).overall_similarity

/-- `SimilarityEngine._compare_measures`. -/
def compareMeasures (measures1 measures2 : List DAXMeasure) : ℚ :=
  if measures1 = [] ∧ measures2 = [] then 1
  else if measures1 = [] ∨ measures2 = [] then 0
  else
    let name_similarity := jaccardQ (measureNames measures1) (measureNames measures2)
    let formula_similarity := listAvg (matchedFormulaSims measures1 measures2)
    name_similarity * 0.6 + formula_similarity * 0.4

/-- Per-type count `types[visual_type]` of the defaultdict in
`_compare_visuals`. -/
def typeCount (vs : List VisualElement) (t : String) : Nat :=
  (vs.filter fun v => v.visual_type == t).length

/-- `all_types`: the union of visual types present on either side. -/
def allTypes (vs1 vs2 : List VisualElement) : List String :=
  ((vs1.map fun v => v.visual_type) ++ (vs2.map fun v => v.visual_type)).dedup

/-- The `type_similarities` list of `_compare_visuals`, with the locals
`count1`/`count2` inlined (the `continue` branch for a type absent on
both sides is modelled by `filterMap`). -/
def typeSims (vs1 vs2 : List VisualElement) : List ℚ :=
  (allTypes vs1 vs2).filterMap fun t =>
    if typeCount vs1 t = 0 ∧ typeCount vs2 t = 0 then none
    else if typeCount vs1 t = 0 ∨ typeCount vs2 t = 0 then some 0
    else some (1 - |(typeCount vs1 t : ℚ) - (typeCount vs2 t : ℚ)| /
      max (typeCount vs1 t : ℚ) (typeCount vs2 t : ℚ))

/-- `visual_type_similarity` of `_compare_visuals`. -/
def visualTypeSimilarity (vs1 vs2 : List VisualElement) : ℚ := listAvg (typeSims vs1 vs2)

/-- Union of all data fields referenced by the given visuals. -/
def visualFields (vs : List VisualElement) : Finset String :=
  (vs.flatMap fun v => v.data_fields).toFinset

/-- `field_similarity` of `_compare_visuals`. -/
def fieldSimilarity (vs1 vs2 : List VisualElement) : ℚ :=
  jaccardQ (visualFields vs1) (visualFields vs2)

/-- `SimilarityEngine._compare_visuals`. -/
def compareVisuals (visuals1 visuals2 : List VisualElement) : ℚ :=
  if visuals1 = [] ∧ visuals2 = [] then 1
  else if visuals1 = [] ∨ visuals2 = [] then 0
  else visualTypeSimilarity visuals1 visuals2 * 0.6 + fieldSimilarity visuals1 visuals2 * 0.4

/-- Lower-cased table-name set. -/
def tableNames (ts : List DataTable) : Finset String :=
  (ts.map fun t => lowerStr t.table_name).toFinset

/-- `SimilarityEngine._compare_data_model`. -/
def compareDataModel (tables1 tables2 : List DataTable) : ℚ :=
  if tables1 = [] ∧ tables2 = [] then 1
  else if tables1 = [] ∨ tables2 = [] then 0
  else jaccardQ (tableNames tables1) (tableNames tables2)

/-- `sorted(pages.values())`: the per-page visual counts of a dashboard in
ascending order. -/
def pageCounts (vs : List VisualElement) : List Nat :=
  List.insertionSort (· ≤ ·)
    (((vs.map fun v => v.page_name).dedup).map fun p =>
      (vs.filter fun v => v.page_name == p).length)

/-- `SimilarityEngine._compare_layout` (the positional loop over
`range(min_length)` is the elementwise zip of the two sorted count
lists). -/
def compareLayout (visuals1 visuals2 : List VisualElement) : ℚ :=
  if visuals1 = [] ∧ visuals2 = [] then 1
  else if visuals1 = [] ∨ visuals2 = [] then 0
  else
    let page_counts1 := pageCounts visuals1
    let page_counts2 := pageCounts visuals2
    if page_counts1 = [] ∧ page_counts2 = [] then 1
    else if page_counts1 = [] ∨ page_counts2 = [] then 0
    else
      let min_length := min page_counts1.length page_counts2.length
      if min_length = 0 then 0
      else
        let similarities := (page_counts1.zip page_counts2).map fun p =>
          if p.1 = p.2 then (1 : ℚ)
          else 1 - |(p.1 : ℚ) - (p.2 : ℚ)| / max (p.1 : ℚ) (p.2 : ℚ)
        let length_penalty :=
          (min_length : ℚ) / ((max page_counts1.length page_counts2.length : ℕ) : ℚ)
        if similarities = [] then 0
        else (similarities.sum / similarities.length) * length_penalty

/-- The filter-typed visuals of a dashboard. -/
def filterVisuals (vs : List VisualElement) : List VisualElement :=
  vs.filter fun v => v.visual_type == "filter"

/-- `SimilarityEngine._compare_filters`. -/
def compareFilters (visuals1 visuals2 : List VisualElement) : ℚ :=
  let filters1 := filterVisuals visuals1
  let filters2 := filterVisuals visuals2
  if filters1 = [] ∧ filters2 = [] then 1
  else if filters1 = [] ∨ filters2 = [] then 0
  else jaccardQ (visualFields filters1) (visualFields filters2)

/-- `SimilarityEngine.compare_dashboards`. -/
def compare_dashboards (dashboard1 dashboard2 : DashboardProfile) (weights : Weights) :
    SimilarityScore :=
  let measures_score := compareMeasures dashboard1.measures dashboard2.measures
  let visuals_score := compareVisuals dashboard1.visual_elements dashboard2.visual_elements
  let data_model_score := compareDataModel dashboard1.tables dashboard2.tables
  let layout_score := compareLayout dashboard1.visual_elements dashboard2.visual_elements
  let filters_score := compareFilters dashboard1.visual_elements dashboard2.visual_elements
  { dashboard1_id := dashboard1.dashboard_id
    dashboard2_id := dashboard2.dashboard_id
    dashboard1_name := dashboard1.dashboard_name
    dashboard2_name := dashboard2.dashboard_name
    total_score := measures_score * weights.measures + visuals_score * weights.visuals +
      data_model_score * weights.data_model + layout_score * weights.layout
    breakdown := ⟨measures_score, visuals_score, data_model_score, layout_score, filters_score⟩ }

/-- The unordered pair sweep `for i ... for j in range(i+1, ...)`. -/
def allPairs {α : Type} : List α → List (α × α)
  | [] => []
  | x :: rest => (rest.map fun y => (x, y)) ++ allPairs rest

/-- `SimilarityEngine.compare_all_dashboards`: score every unordered pair,
then stable-sort descending by `total_score`. -/
def compare_all_dashboards (profiles : List DashboardProfile) (weights : Weights) :
    List SimilarityScore :=
  List.insertionSort (fun a b => b.total_score ≤ a.total_score)
    ((allPairs profiles).map fun pq => compare_dashboards pq.1 pq.2 weights)

/-! ### Consolidation grouping (similarity.py) -/

/-- The adjacency query `connections.get(x, set())` for the defaultdict
built from all scores with `total_score >= review_threshold` (both
directions are inserted; the set is carried as a duplicate-free list). -/
def neighbors (scores : List SimilarityScore) (x : String) : List String :=
  (((scores.filter fun s => decide (review_threshold ≤ s.total_score ∧ s.dashboard1_id = x)).map
      fun s => s.dashboard2_id) ++
   ((scores.filter fun s => decide (review_threshold ≤ s.total_score ∧ s.dashboard2_id = x)).map
      fun s => s.dashboard1_id)).dedup

/-- The edge relation of the consolidation graph: some materialised score
at or above the review threshold joins the two ids (in either order). -/
def EdgeRel (scores : List SimilarityScore) (x y : String) : Prop :=
  ∃ s ∈ scores, review_threshold ≤ s.total_score ∧
    ((s.dashboard1_id = x ∧ s.dashboard2_id = y) ∨ (s.dashboard1_id = y ∧ s.dashboard2_id = x))

/-- Two dashboards are joined by a chain of edges each at or above the
review threshold: the reflexive-transitive closure of `EdgeRel`. -/
@[reducible] def Connects (scores : List SimilarityScore) : String → String → Prop :=
  Relation.ReflTransGen (EdgeRel scores)

/-- A set of ids closed under the consolidation edges (the visited set of
the grouping loop always has this shape). -/
def EdgeClosed (scores : List SimilarityScore) (V : Finset String) : Prop :=
  ∀ x ∈ V, ∀ y, EdgeRel scores x y → y ∈ V

/-- The `while stack:` loop of `_find_connected_group`.  The loop is
modelled with explicit fuel (the source loop terminates because each
iteration either discards a visited stack entry or marks a new node
visited); callers pass fuel that provably suffices. -/
def dfsLoop (adj : String → List String) :
    Nat → List String → Finset String → Finset String → Finset String × Finset String
  | 0, _, visited, group => (visited, group)
  | _ + 1, [], visited, group => (visited, group)
  | fuel + 1, current :: rest, visited, group =>
    if current ∈ visited then dfsLoop adj fuel rest visited group
    else
      let visited' := insert current visited
      let group' := insert current group
      dfsLoop adj fuel
        (((adj current).filter fun n => decide (n ∉ visited')) ++ rest) visited' group'

/-- `SimilarityEngine._find_connected_group`: returns the updated visited
set together with the collected group. -/
def find_connected_group (fuel : Nat) (adj : String → List String) (start_id : String)
    (visited : Finset String) : Finset String × Finset String :=
  if start_id ∈ visited then (visited, ∅)
  else dfsLoop adj fuel [start_id] visited ∅

/-- Every id mentioned anywhere in the inputs; all nodes the traversal can
ever touch lie in this set. -/
def nodeUniverse (profiles : List DashboardProfile) (scores : List SimilarityScore) :
    Finset String :=
  (profiles.map fun p => p.dashboard_id).toFinset ∪
    (scores.map fun s => s.dashboard1_id).toFinset ∪
    (scores.map fun s => s.dashboard2_id).toFinset

/-- Fuel that provably suffices for every `_find_connected_group` call. -/
def groupFuel (profiles : List DashboardProfile) (scores : List SimilarityScore) : Nat :=
  ((nodeUniverse profiles scores).card + 1) ^ 2

/-- The `for profile in profiles:` loop of `generate_consolidation_groups`
collecting the connected components with more than one member. -/
def groupsAux (adj : String → List String) (fuel : Nat) :
    List DashboardProfile → Finset String → List (Finset String)
  | [], _ => []
  | profile :: rest, visited =>
    if profile.dashboard_id ∈ visited then groupsAux adj fuel rest visited
    else
      let r := find_connected_group fuel adj profile.dashboard_id visited
      if 1 < r.2.card then r.2 :: groupsAux adj fuel rest r.1
      else groupsAux adj fuel rest r.1

/-- The member-id sets of the consolidation groups, in emission order. -/
def consolidationGroupIds (profiles : List DashboardProfile)
    (scores : List SimilarityScore) : List (Finset String) :=
  groupsAux (neighbors scores) (groupFuel profiles scores) profiles ∅

/-- `profile_lookup = {p.dashboard_id: p for p in profiles}` (first match;
read back with `find?` since the engine only looks up ids of listed
profiles). -/
def profile_lookup (profiles : List DashboardProfile) (did : String) :
    Option DashboardProfile :=
  profiles.find? fun p => p.dashboard_id == did

/-- Mean `total_score` over every scored pair with both endpoints inside
the group. -/
def groupAverageSimilarity (scores : List SimilarityScore) (group_ids : Finset String) : ℚ :=
  listAvg ((scores.filter fun s =>
    decide (s.dashboard1_id ∈ group_ids ∧ s.dashboard2_id ∈ group_ids)).map
      fun s => s.total_score)

/-- `SimilarityEngine._generate_recommendation`, taking the group member
profiles (`[profile_lookup[gid] for gid in group_ids]`) directly. -/
def generate_recommendation (group_profiles : List DashboardProfile)
    (avg_similarity : ℚ) : ConsolidationRecommendation :=
  let base : String × String × Int :=
    if merge_threshold ≤ avg_similarity then ("merge", "medium", 5)
    else if review_threshold ≤ avg_similarity then ("consolidate", "high", 3)
    else ("review", "low", 1)
  let total_measures : Nat := (group_profiles.map fun p => p.measures.length).sum
  let total_visuals : Nat := (group_profiles.map fun p => p.visual_elements.length).sum
  if 50 < total_measures ∨ 100 < total_visuals then
    { action := base.1
      effort_estimate := if base.2.1 = "medium" then "high" else base.2.1
      priority := max 1 (base.2.2 - 1) }
  else
    { action := base.1, effort_estimate := base.2.1, priority := base.2.2 }

/-- `SimilarityEngine.generate_consolidation_groups`. -/
def generate_consolidation_groups (profiles : List DashboardProfile)
    (scores : List SimilarityScore) : List ConsolidationGroup :=
  (consolidationGroupIds profiles scores).enum.map fun ig =>
    let avg := groupAverageSimilarity scores ig.2
    -- `[profile_lookup[gid] for gid in group_ids]`: the member profiles;
    -- collected by filtering the profile list on group membership, which
    -- agrees with the source whenever dashboard ids are not duplicated.
    let group_profiles := profiles.filter fun p => decide (p.dashboard_id ∈ ig.2)
    { group_id := "group_" ++ toString (ig.1 + 1)
      dashboard_ids := ig.2
      dashboard_names := group_profiles.map fun p => p.dashboard_name
      average_similarity := avg
      recommendation := generate_recommendation group_profiles avg }

/-- The `analyze-similarity` endpoint of main.py: fewer than two uploaded
profiles is rejected up front with an explicit error; otherwise the full
pairwise analysis runs and a successful response is returned. -/
def analyze_similarity (profiles : List DashboardProfile) :
    Except String (List SimilarityScore × List ConsolidationGroup) :=
  if profiles.length < 2 then Except.error "Need at least 2 dashboards to compare"
  else
    let scores := compare_all_dashboards profiles default_weights
    Except.ok (scores, generate_consolidation_groups profiles scores)

end SimilarityEngine

open MetadataProcessor SimilarityEngine

/-! ### Concrete instances used in example-based theorems -/

/-- Example 1 of the spec: the single measure of dashboard A. -/
def measureTotalSales : DAXMeasure := ⟨"Total Sales", "SUM(Sales[Amount])", "Sales"⟩

/-- Example 1 of the spec: the second measure of dashboard B. -/
def measureAvgSales : DAXMeasure := ⟨"Avg Sales", "AVERAGE(Sales[Amount])", "Sales"⟩

/-- A visual element that references no data fields. -/
def noFieldVisual : VisualElement := ⟨"card", [], "Page1"⟩

/-- A visual element that references one data field. -/
def fieldVisual : VisualElement := ⟨"card", ["Sales[Amount]"], "Page1"⟩

/-- A profile whose only visual references no data fields. -/
def noFieldProfile : DashboardProfile := ⟨"d1", "Dashboard 1", [noFieldVisual], [], []⟩

/-- A non-degenerate profile with a field-bearing visual, one measure and
one table. -/
def richProfile : DashboardProfile :=
  ⟨"d2", "Dashboard 2", [fieldVisual], [measureTotalSales], [⟨"Sales"⟩]⟩

/-- A profile holding 60 copies of a measure (for the recommendation
escalation example). -/
def sixtyMeasureProfile : DashboardProfile :=
  ⟨"d3", "Dashboard 3", [], List.replicate 60 measureTotalSales, []⟩

/-- A bare profile with the given id and no content. -/
def bareProfile (did : String) : DashboardProfile := ⟨did, did, [], [], []⟩

/-- A similarity score record with the given endpoints and total. -/
def bareScore (a b : String) (t : ℚ) : SimilarityScore := ⟨a, b, a, b, t, ⟨0, 0, 0, 0, 0⟩⟩

/-- Example 2 of the spec: three dashboards. -/
def exampleProfiles : List DashboardProfile := [bareProfile "A", bareProfile "B", bareProfile "C"]

/-- Example 2 of the spec: pairwise totals A-B 0.90, B-C 0.75, A-C 0.40. -/
def exampleScores : List SimilarityScore :=
  [bareScore "A" "B" 0.9, bareScore "B" "C" 0.75, bareScore "A" "C" 0.4]

/-! ### General lemmas about the helpers -/

theorem listAvg_nonneg {l : List ℚ} (h : ∀ x ∈ l, 0 ≤ x) : 0 ≤ listAvg l := by
  unfold listAvg
  split
  · exact le_refl 0
  · exact div_nonneg (List.sum_nonneg h) (Nat.cast_nonneg _)

theorem listAvg_le_one {l : List ℚ} (h : ∀ x ∈ l, x ≤ 1) : listAvg l ≤ 1 := by
  unfold listAvg
  split
  · norm_num
  · rename_i hne
    have hl : 0 < (l.length : ℚ) := by
      exact_mod_cast List.length_pos.mpr hne
    rw [div_le_one hl]
    simpa using List.sum_le_card_nsmul l 1 h

theorem listAvg_ones {l : List ℚ} (hne : l ≠ []) (h : ∀ x ∈ l, x = 1) : listAvg l = 1 := by
  unfold listAvg
  rw [if_neg hne]
  have hsum : l.sum = (l.length : ℚ) := by
    simpa using List.sum_eq_card_nsmul l 1 h
  rw [hsum]
  exact div_self (by exact_mod_cast List.length_pos.mpr hne |>.ne')

theorem listAvg_perm {l1 l2 : List ℚ} (h : l1.Perm l2) : listAvg l1 = listAvg l2 := by
  unfold listAvg
  by_cases h1 : l1 = []
  · have h2 : l2 = [] := by
      rw [h1] at h
      exact h.symm.eq_nil
    rw [h1, h2]
  · have h2 : l2 ≠ [] := fun he => h1 (by rw [he] at h; exact h.eq_nil)
    rw [if_neg h1, if_neg h2, h.sum_eq, h.length_eq]

theorem jaccardQ_nonneg (s1 s2 : Finset String) : 0 ≤ jaccardQ s1 s2 := by
  unfold jaccardQ
  split
  · positivity
  · exact le_refl 0

theorem jaccardQ_le_one (s1 s2 : Finset String) : jaccardQ s1 s2 ≤ 1 := by
  unfold jaccardQ
  split
  · rename_i h
    rw [div_le_one (by exact_mod_cast h)]
    exact_mod_cast Finset.card_le_card (Finset.inter_subset_union)
  · norm_num

theorem jaccardQ_comm (s1 s2 : Finset String) : jaccardQ s1 s2 = jaccardQ s2 s1 := by
  unfold jaccardQ
  rw [Finset.union_comm, Finset.inter_comm]

theorem jaccardQ_self {s : Finset String} (h : s.Nonempty) : jaccardQ s s = 1 := by
  unfold jaccardQ
  rw [Finset.union_self, Finset.inter_self, if_pos (Finset.card_pos.mpr h)]
  exact div_self (by exact_mod_cast (Finset.card_pos.mpr h).ne')

/-! ### Self-comparison lemmas -/

theorem functionSimilarity_self (l : List String) : functionSimilarity l l = 1 := by
  unfold functionSimilarity
  by_cases h : l = []
  · rw [if_pos ⟨h, h⟩]
  · rw [if_neg (by tauto), if_neg (by tauto)]
    apply jaccardQ_self
    obtain ⟨x, hx⟩ := List.exists_mem_of_ne_nil l h
    exact ⟨x, List.mem_toFinset.mpr hx⟩

theorem indicatorSim_self (v : Nat) : indicatorSim v v = 1 := by
  unfold indicatorSim
  by_cases h : v = 0
  · rw [if_pos ⟨h, h⟩]
  · rw [if_neg (by tauto), if_neg (by tauto)]
    simp

theorem indicatorKeys_ne_nil {ind1 ind2 : List (String × Nat)} (h : ind1 ≠ []) :
    indicatorKeys ind1 ind2 ≠ [] := by
  unfold indicatorKeys
  rw [Ne, List.dedup_eq_nil, List.append_eq_nil]
  intro hc
  exact h (List.map_eq_nil_iff.mp hc.1)

theorem structureSimilarity_self (ind : List (String × Nat)) :
    structureSimilarity ind ind = 1 := by
  unfold structureSimilarity
  by_cases h : ind = []
  · rw [if_pos ⟨h, h⟩]
  · rw [if_neg (by tauto)]
    apply listAvg_ones
    · intro hc
      exact indicatorKeys_ne_nil h (List.map_eq_nil_iff.mp hc)
    · intro x hx
      obtain ⟨k, _, rfl⟩ := List.mem_map.mp hx
      exact indicatorSim_self _

theorem stringSimilarity_self (f : String) : stringSimilarity f f = 1 := by
  unfold stringSimilarity
  by_cases h : f = ""
  · rw [if_pos ⟨h, h⟩]
  · rw [if_neg (by tauto), if_neg (by tauto)]
    simp

theorem compare_measures_overall_self (m : DAXMeasure) :
    (compare_measures m m).overall_similarity = 1 := by
  show functionSimilarity (analyze_dax_formula m.dax_formula).used_functions
        (analyze_dax_formula m.dax_formula).used_functions * 0.4 +
      structureSimilarity (analyze_dax_formula m.dax_formula).complexity_indicators
        (analyze_dax_formula m.dax_formula).complexity_indicators * 0.3 +
      stringSimilarity m.dax_formula m.dax_formula * 0.3 = 1
  rw [functionSimilarity_self, structureSimilarity_self, stringSimilarity_self]
  norm_num

theorem typeCount_pos {vs : List VisualElement} {t : String}
    (h : t ∈ vs.map fun v => v.visual_type) : 0 < typeCount vs t := by
  obtain ⟨v, hv, rfl⟩ := List.mem_map.mp h
  unfold typeCount
  have hmem : v ∈ vs.filter fun v2 => v2.visual_type == v.visual_type :=
    List.mem_filter.mpr ⟨hv, by simp⟩
  exact List.length_pos.mpr (List.ne_nil_of_mem hmem)

theorem mem_allTypes_self {vs : List VisualElement} {t : String} :
    t ∈ allTypes vs vs ↔ t ∈ vs.map fun v => v.visual_type := by
  unfold allTypes
  rw [List.mem_dedup, List.mem_append]
  tauto

theorem typeSims_self_ones {vs : List VisualElement} : ∀ x ∈ typeSims vs vs, x = 1 := by
  intro x hx
  obtain ⟨t, ht, hsome⟩ := List.mem_filterMap.mp hx
  have hne : typeCount vs t ≠ 0 :=
    (typeCount_pos (mem_allTypes_self.mp ht)).ne'
  rw [if_neg (fun h => hne h.1), if_neg (fun h => hne (h.elim id id))] at hsome
  have := Option.some.inj hsome
  simp at this
  exact this.symm

theorem typeSims_self_ne_nil {vs : List VisualElement} (h : vs ≠ []) :
    typeSims vs vs ≠ [] := by
  obtain ⟨v, hv⟩ := List.exists_mem_of_ne_nil vs h
  have ht : v.visual_type ∈ allTypes vs vs :=
    mem_allTypes_self.mpr (List.mem_map.mpr ⟨v, hv, rfl⟩)
  have hne : typeCount vs v.visual_type ≠ 0 :=
    (typeCount_pos (List.mem_map.mpr ⟨v, hv, rfl⟩)).ne'
  have hsome : (if typeCount vs v.visual_type = 0 ∧ typeCount vs v.visual_type = 0 then none
      else if typeCount vs v.visual_type = 0 ∨ typeCount vs v.visual_type = 0 then some (0 : ℚ)
      else some (1 - |(typeCount vs v.visual_type : ℚ) - (typeCount vs v.visual_type : ℚ)| /
        max (typeCount vs v.visual_type : ℚ) (typeCount vs v.visual_type : ℚ))) =
      some (1 - |(typeCount vs v.visual_type : ℚ) - (typeCount vs v.visual_type : ℚ)| /
        max (typeCount vs v.visual_type : ℚ) (typeCount vs v.visual_type : ℚ)) := by
    rw [if_neg (fun hc => hne hc.1), if_neg (fun hc => hne (hc.elim id id))]
  exact List.ne_nil_of_mem (List.mem_filterMap.mpr ⟨v.visual_type, ht, hsome⟩)

theorem visualTypeSimilarity_self {vs : List VisualElement} (h : vs ≠ []) :
    visualTypeSimilarity vs vs = 1 :=
  listAvg_ones (typeSims_self_ne_nil h) typeSims_self_ones

theorem visualFields_eq_empty {vs : List VisualElement}
    (h : ∀ v ∈ vs, v.data_fields = []) : visualFields vs = ∅ := by
  unfold visualFields
  rw [List.toFinset_eq_empty_iff]
  exact List.flatMap_eq_nil_iff.mpr h

theorem jaccardQ_empty : jaccardQ ∅ ∅ = 0 := by
  unfold jaccardQ
  simp

theorem matchedFormulaSims_self_ones {ms : List DAXMeasure}
    (hnd : (ms.map fun m => lowerStr m.measure_name).Nodup) :
    ∀ x ∈ matchedFormulaSims ms ms, x = 1 := by
  intro x hx
  obtain ⟨m1, hm1, hx1⟩ := List.mem_flatMap.mp hx
  obtain ⟨m2, hm2, rfl⟩ := List.mem_map.mp hx1
  obtain ⟨hm2', hbeq⟩ := List.mem_filter.mp hm2
  have heq : lowerStr m1.measure_name = lowerStr m2.measure_name := by
    exact_mod_cast eq_of_beq hbeq
  have : m1 = m2 := List.inj_on_of_nodup_map hnd hm1 hm2' heq
  rw [← this]
  exact compare_measures_overall_self m1

theorem matchedFormulaSims_self_ne_nil {ms : List DAXMeasure} (h : ms ≠ []) :
    matchedFormulaSims ms ms ≠ [] := by
  obtain ⟨m, hm⟩ := List.exists_mem_of_ne_nil ms h
  exact List.ne_nil_of_mem (List.mem_flatMap.mpr
    ⟨m, hm, List.mem_map.mpr ⟨m, List.mem_filter.mpr ⟨hm, by simp⟩, rfl⟩⟩)

theorem measureNames_nonempty {ms : List DAXMeasure} (h : ms ≠ []) :
    (measureNames ms).Nonempty := by
  obtain ⟨m, hm⟩ := List.exists_mem_of_ne_nil ms h
  exact ⟨lowerStr m.measure_name, List.mem_toFinset.mpr (List.mem_map.mpr ⟨m, hm, rfl⟩)⟩

theorem compareMeasures_self {ms : List DAXMeasure}
    (hnd : (ms.map fun m => lowerStr m.measure_name).Nodup) :
    compareMeasures ms ms = 1 := by
  by_cases h : ms = []
  · unfold compareMeasures
    rw [if_pos ⟨h, h⟩]
  · unfold compareMeasures
    rw [if_neg (by tauto), if_neg (by tauto), jaccardQ_self (measureNames_nonempty h),
      listAvg_ones (matchedFormulaSims_self_ne_nil h) (matchedFormulaSims_self_ones hnd)]
    norm_num

theorem compareDataModel_self (ts : List DataTable) : compareDataModel ts ts = 1 := by
  by_cases h : ts = []
  · unfold compareDataModel
    rw [if_pos ⟨h, h⟩]
  · unfold compareDataModel
    rw [if_neg (by tauto), if_neg (by tauto)]
    apply jaccardQ_self
    obtain ⟨t, ht⟩ := List.exists_mem_of_ne_nil ts h
    exact ⟨lowerStr t.table_name, List.mem_toFinset.mpr (List.mem_map.mpr ⟨t, ht, rfl⟩)⟩

theorem compareVisuals_self {vs : List VisualElement}
    (hf : vs ≠ [] → ∃ v ∈ vs, v.data_fields ≠ []) : compareVisuals vs vs = 1 := by
  by_cases h : vs = []
  · unfold compareVisuals
    rw [if_pos ⟨h, h⟩]
  · unfold compareVisuals
    rw [if_neg (by tauto), if_neg (by tauto), visualTypeSimilarity_self h]
    have hfield : fieldSimilarity vs vs = 1 := by
      unfold fieldSimilarity
      apply jaccardQ_self
      obtain ⟨v, hv, hfld⟩ := hf h
      obtain ⟨x, hx⟩ := List.exists_mem_of_ne_nil _ hfld
      exact ⟨x, List.mem_toFinset.mpr (List.mem_flatMap.mpr ⟨v, hv, hx⟩)⟩
    rw [hfield]
    norm_num

theorem zip_self_eq {α : Type} (l : List α) : l.zip l = l.map fun a => (a, a) := by
  induction l with
  | nil => rfl
  | cons a rest ih =>
    rw [List.zip_cons_cons, ih, List.map_cons]

theorem pageCounts_ne_nil {vs : List VisualElement} (h : vs ≠ []) : pageCounts vs ≠ [] := by
  unfold pageCounts
  intro hc
  have hperm := List.perm_insertionSort (fun a b => a ≤ b)
      (((vs.map fun v => v.page_name).dedup).map fun p =>
        (vs.filter fun v => v.page_name == p).length)
  rw [hc] at hperm
  have hnil := hperm.symm.eq_nil
  rw [List.map_eq_nil_iff, List.dedup_eq_nil, List.map_eq_nil_iff] at hnil
  exact h hnil

theorem compareLayout_self (vs : List VisualElement) : compareLayout vs vs = 1 := by
  by_cases h : vs = []
  · unfold compareLayout
    rw [if_pos ⟨h, h⟩]
  · have hpc : pageCounts vs ≠ [] := pageCounts_ne_nil h
    have hlen : (pageCounts vs).length ≠ 0 := fun hc => hpc (List.length_eq_zero.mp hc)
    have hlenQ : ((pageCounts vs).length : ℚ) ≠ 0 := by exact_mod_cast hlen
    unfold compareLayout
    rw [if_neg (by tauto), if_neg (by tauto)]
    dsimp only
    rw [if_neg (by tauto), if_neg (by tauto), min_self, if_neg hlen, zip_self_eq,
      List.map_map]
    have hones : ∀ a ∈ pageCounts vs,
        ((fun p : ℕ × ℕ =>
          if p.1 = p.2 then (1 : ℚ)
          else 1 - |(p.1 : ℚ) - (p.2 : ℚ)| / max (p.1 : ℚ) (p.2 : ℚ)) ∘ fun a => (a, a)) a
          = 1 := by
      intro a _
      simp
    rw [List.map_congr_left hones, List.map_const', List.sum_replicate, List.length_replicate,
      if_neg (by simpa using hlen), max_self, nsmul_eq_mul, mul_one, div_self hlenQ,
      one_mul]

theorem lookup0_mem {ind : List (String × Nat)} (hnd : (ind.map Prod.fst).Nodup)
    {p : String × Nat} (hp : p ∈ ind) : lookup0 ind p.1 = p.2 := by
  induction ind with
  | nil => cases hp
  | cons q rest ih =>
    rw [List.map_cons, List.nodup_cons] at hnd
    rcases List.mem_cons.mp hp with rfl | hmem
    · unfold lookup0
      rw [if_pos rfl]
    · unfold lookup0
      rw [if_neg (fun he => hnd.1 (by rw [he]; exact List.mem_map.mpr ⟨p, hmem, rfl⟩))]
      exact ih hnd.2 hmem

theorem structureSimilarity_empty_left {ind : List (String × Nat)} (hne : ind ≠ [])
    (hnd : (ind.map Prod.fst).Nodup) :
    structureSimilarity [] ind = listAvg (ind.map fun p => indicatorSim 0 p.2) := by
  unfold structureSimilarity
  rw [if_neg (fun h => hne h.2)]
  congr 1
  have hk : indicatorKeys [] ind = ind.map Prod.fst := by
    unfold indicatorKeys
    rw [List.map_nil, List.nil_append, List.dedup_eq_self.mpr hnd]
  rw [hk, List.map_map]
  apply List.map_congr_left
  intro p hp
  show indicatorSim (lookup0 [] p.1) (lookup0 ind p.1) = indicatorSim 0 p.2
  rw [lookup0_mem hnd hp]
  rfl

/-! ### Symmetry lemmas -/

theorem sumMapAdd {α M : Type} [AddCommMonoid M] (l : List α) (f g : α → M) :
    (l.map fun a => f a + g a).sum = (l.map f).sum + (l.map g).sum := by
  induction l with
  | nil => simp
  | cons a rest ih =>
    simp only [List.map_cons, List.sum_cons, ih]
    rw [add_add_add_comm]

theorem sumMapSwap {α β M : Type} [AddCommMonoid M] (l1 : List α) (l2 : List β)
    (f : α → β → M) :
    (l1.map fun a => (l2.map fun b => f a b).sum).sum =
    (l2.map fun b => (l1.map fun a => f a b).sum).sum := by
  induction l1 with
  | nil => simp
  | cons a rest ih =>
    simp only [List.map_cons, List.sum_cons, ih]
    rw [← sumMapAdd]

theorem filterMapSum (l : List DAXMeasure) (p : DAXMeasure → Bool) (f : DAXMeasure → ℚ) :
    ((l.filter p).map f).sum = (l.map fun a => if p a then f a else 0).sum := by
  induction l with
  | nil => rfl
  | cons a rest ih =>
    rw [List.filter_cons]
    by_cases h : p a
    · rw [if_pos h, List.map_cons, List.sum_cons, ih, List.map_cons, List.sum_cons, if_pos h]
    · rw [if_neg h, ih, List.map_cons, List.sum_cons, if_neg h, zero_add]

theorem filterLengthSum (l : List DAXMeasure) (p : DAXMeasure → Bool) :
    (l.filter p).length = (l.map fun a => if p a then (1 : ℕ) else 0).sum := by
  induction l with
  | nil => rfl
  | cons a rest ih =>
    rw [List.filter_cons]
    by_cases h : p a
    · rw [if_pos h, List.length_cons, ih, List.map_cons, List.sum_cons, if_pos h, add_comm]
    · rw [if_neg h, ih, List.map_cons, List.sum_cons, if_neg h, zero_add]

theorem matchedFormulaSims_sum (ms1 ms2 : List DAXMeasure) :
    (matchedFormulaSims ms1 ms2).sum =
      (ms1.map fun m1 => (ms2.map fun m2 =>
        if lowerStr m1.measure_name == lowerStr m2.measure_name
        then (compare_measures m1 m2).overall_similarity else 0).sum).sum := by
  unfold matchedFormulaSims
  induction ms1 with
  | nil => rfl
  | cons m rest ih =>
    rw [List.flatMap_cons, List.sum_append, ih, List.map_cons, List.sum_cons, filterMapSum]

theorem matchedFormulaSims_length (ms1 ms2 : List DAXMeasure) :
    (matchedFormulaSims ms1 ms2).length =
      (ms1.map fun m1 => (ms2.map fun m2 =>
        if lowerStr m1.measure_name == lowerStr m2.measure_name then (1 : ℕ) else 0).sum).sum := by
  unfold matchedFormulaSims
  induction ms1 with
  | nil => rfl
  | cons m rest ih =>
    rw [List.flatMap_cons, List.length_append, ih, List.map_cons, List.sum_cons,
      List.length_map, filterLengthSum]

theorem strBeq_comm (x y : String) : (x == y) = (y == x) := by
  by_cases h : x = y
  · rw [h]
  · rw [beq_eq_false_iff_ne.mpr h, beq_eq_false_iff_ne.mpr (fun he => h he.symm)]

theorem functionSimilarity_comm (l1 l2 : List String) :
    functionSimilarity l1 l2 = functionSimilarity l2 l1 := by
  unfold functionSimilarity
  by_cases h1 : l1 = [] <;> by_cases h2 : l2 = [] <;> simp [h1, h2, jaccardQ_comm]

theorem indicatorSim_comm (a b : Nat) : indicatorSim a b = indicatorSim b a := by
  unfold indicatorSim
  by_cases h1 : a = 0 <;> by_cases h2 : b = 0 <;>
    simp [h1, h2, abs_sub_comm, max_comm]

theorem indicatorKeys_perm (ind1 ind2 : List (String × Nat)) :
    (indicatorKeys ind1 ind2).Perm (indicatorKeys ind2 ind1) := by
  apply (List.perm_ext_iff_of_nodup (List.nodup_dedup _) (List.nodup_dedup _)).mpr
  intro a
  rw [List.mem_dedup, List.mem_dedup, List.mem_append, List.mem_append]
  exact or_comm

theorem structureSimilarity_comm (ind1 ind2 : List (String × Nat)) :
    structureSimilarity ind1 ind2 = structureSimilarity ind2 ind1 := by
  unfold structureSimilarity
  by_cases hb : ind1 = [] ∧ ind2 = []
  · rw [if_pos hb, if_pos ⟨hb.2, hb.1⟩]
  · rw [if_neg hb, if_neg (fun hc => hb ⟨hc.2, hc.1⟩)]
    rw [listAvg_perm ((indicatorKeys_perm ind1 ind2).map _)]
    congr 1
    apply List.map_congr_left
    intro k _
    exact indicatorSim_comm _ _

theorem posMatchCount_comm : ∀ l1 l2 : List Char, posMatchCount l1 l2 = posMatchCount l2 l1 := by
  intro l1
  induction l1 with
  | nil => intro l2; cases l2 <;> rfl
  | cons a as ih =>
    intro l2
    cases l2 with
    | nil => rfl
    | cons b bs =>
      show (if a = b then 1 else 0) + posMatchCount as bs =
        (if b = a then 1 else 0) + posMatchCount bs as
      rw [ih]
      congr 1
      by_cases h : a = b
      · rw [if_pos h, if_pos h.symm]
      · rw [if_neg h, if_neg (fun he => h he.symm)]

theorem stringSimilarity_comm (f1 f2 : String) :
    stringSimilarity f1 f2 = stringSimilarity f2 f1 := by
  unfold stringSimilarity
  by_cases h1 : f1 = ""
  · by_cases h2 : f2 = ""
    · rw [if_pos ⟨h1, h2⟩, if_pos ⟨h2, h1⟩]
    · rw [if_neg (fun hc => h2 hc.2), if_pos (Or.inl h1),
        if_neg (fun hc => h2 hc.1), if_pos (Or.inr h1)]
  · by_cases h2 : f2 = ""
    · rw [if_neg (fun hc => h1 hc.1), if_pos (Or.inr h2),
        if_neg (fun hc => h1 hc.2), if_pos (Or.inl h2)]
    · rw [if_neg (show ¬(f1 = "" ∧ f2 = "") by tauto),
        if_neg (show ¬(f1 = "" ∨ f2 = "") by tauto),
        if_neg (show ¬(f2 = "" ∧ f1 = "") by tauto),
        if_neg (show ¬(f2 = "" ∨ f1 = "") by tauto)]
      dsimp only
      by_cases hn : normalizeFormula f1 = normalizeFormula f2
      · rw [if_pos hn, if_pos hn.symm]
      · rw [if_neg hn,
          if_neg (show ¬normalizeFormula f2 = normalizeFormula f1 from fun he => hn he.symm)]
        by_cases hm : max (normalizeFormula f1).length (normalizeFormula f2).length = 0
        · rw [if_pos hm,
            if_pos (show max (normalizeFormula f2).length (normalizeFormula f1).length = 0 by
              rw [max_comm] at hm; exact hm)]
        · rw [if_neg hm,
            if_neg (show ¬max (normalizeFormula f2).length (normalizeFormula f1).length = 0
              from fun hc => hm (by rw [max_comm] at hc; exact hc)),
            posMatchCount_comm, max_comm ((normalizeFormula f1).length)]

theorem compare_measures_overall_comm (m1 m2 : DAXMeasure) :
    (compare_measures m1 m2).overall_similarity = (compare_measures m2 m1).overall_similarity := by
  show functionSimilarity (analyze_dax_formula m1.dax_formula).used_functions
        (analyze_dax_formula m2.dax_formula).used_functions * 0.4 +
      structureSimilarity (analyze_dax_formula m1.dax_formula).complexity_indicators
        (analyze_dax_formula m2.dax_formula).complexity_indicators * 0.3 +
      stringSimilarity m1.dax_formula m2.dax_formula * 0.3 =
    functionSimilarity (analyze_dax_formula m2.dax_formula).used_functions
        (analyze_dax_formula m1.dax_formula).used_functions * 0.4 +
      structureSimilarity (analyze_dax_formula m2.dax_formula).complexity_indicators
        (analyze_dax_formula m1.dax_formula).complexity_indicators * 0.3 +
      stringSimilarity m2.dax_formula m1.dax_formula * 0.3
  rw [functionSimilarity_comm, structureSimilarity_comm, stringSimilarity_comm]

theorem listAvg_congr {l1 l2 : List ℚ} (hs : l1.sum = l2.sum) (hl : l1.length = l2.length) :
    listAvg l1 = listAvg l2 := by
  unfold listAvg
  by_cases h1 : l1 = []
  · have h2 : l2 = [] := by
      rw [h1] at hl
      exact List.length_eq_zero.mp hl.symm
    rw [h1, h2]
  · have h2 : l2 ≠ [] := fun he => h1 (by rw [he] at hl; exact List.length_eq_zero.mp hl)
    rw [if_neg h1, if_neg h2, hs, hl]

theorem compareMeasures_comm (ms1 ms2 : List DAXMeasure) :
    compareMeasures ms1 ms2 = compareMeasures ms2 ms1 := by
  unfold compareMeasures
  by_cases h1 : ms1 = [] <;> by_cases h2 : ms2 = [] <;> simp only [h1, h2] <;> try simp
  rw [jaccardQ_comm]
  congr 1
  congr 1
  apply listAvg_congr
  · rw [matchedFormulaSims_sum, matchedFormulaSims_sum, sumMapSwap]
    apply congrArg List.sum
    apply List.map_congr_left
    intro b _
    apply congrArg List.sum
    apply List.map_congr_left
    intro a _
    rw [strBeq_comm]
    exact if_congr Iff.rfl (compare_measures_overall_comm a b) rfl
  · rw [matchedFormulaSims_length, matchedFormulaSims_length, sumMapSwap]
    apply congrArg List.sum
    apply List.map_congr_left
    intro b _
    apply congrArg List.sum
    apply List.map_congr_left
    intro a _
    rw [strBeq_comm]

theorem allTypes_perm (vs1 vs2 : List VisualElement) :
    (allTypes vs1 vs2).Perm (allTypes vs2 vs1) := by
  apply (List.perm_ext_iff_of_nodup (List.nodup_dedup _) (List.nodup_dedup _)).mpr
  intro a
  rw [List.mem_dedup, List.mem_dedup, List.mem_append, List.mem_append]
  exact or_comm

theorem typeSims_perm (vs1 vs2 : List VisualElement) :
    (typeSims vs1 vs2).Perm (typeSims vs2 vs1) := by
  unfold typeSims
  have hfun : (fun t =>
      if typeCount vs2 t = 0 ∧ typeCount vs1 t = 0 then none
      else if typeCount vs2 t = 0 ∨ typeCount vs1 t = 0 then some ((0 : ℚ))
      else some (1 - |(typeCount vs2 t : ℚ) - (typeCount vs1 t : ℚ)| /
        max (typeCount vs2 t : ℚ) (typeCount vs1 t : ℚ))) =
      (fun t =>
      if typeCount vs1 t = 0 ∧ typeCount vs2 t = 0 then none
      else if typeCount vs1 t = 0 ∨ typeCount vs2 t = 0 then some ((0 : ℚ))
      else some (1 - |(typeCount vs1 t : ℚ) - (typeCount vs2 t : ℚ)| /
        max (typeCount vs1 t : ℚ) (typeCount vs2 t : ℚ))) := by
    funext t
    by_cases hc1 : typeCount vs1 t = 0 <;> by_cases hc2 : typeCount vs2 t = 0 <;>
      simp [hc1, hc2, abs_sub_comm, max_comm]
  rw [hfun]
  exact (allTypes_perm vs1 vs2).filterMap _

theorem visualTypeSimilarity_comm (vs1 vs2 : List VisualElement) :
    visualTypeSimilarity vs1 vs2 = visualTypeSimilarity vs2 vs1 :=
  listAvg_perm (typeSims_perm vs1 vs2)

theorem fieldSimilarity_comm (vs1 vs2 : List VisualElement) :
    fieldSimilarity vs1 vs2 = fieldSimilarity vs2 vs1 := jaccardQ_comm _ _

theorem compareVisuals_comm (vs1 vs2 : List VisualElement) :
    compareVisuals vs1 vs2 = compareVisuals vs2 vs1 := by
  unfold compareVisuals
  by_cases h1 : vs1 = [] <;> by_cases h2 : vs2 = [] <;> simp only [h1, h2] <;> try simp
  rw [visualTypeSimilarity_comm, fieldSimilarity_comm]

theorem compareDataModel_comm (ts1 ts2 : List DataTable) :
    compareDataModel ts1 ts2 = compareDataModel ts2 ts1 := by
  unfold compareDataModel
  by_cases h1 : ts1 = [] <;> by_cases h2 : ts2 = [] <;> simp [h1, h2, jaccardQ_comm]

theorem layout_sims_comm (c1 c2 : List ℕ) :
    ((c1.zip c2).map fun p => if p.1 = p.2 then (1 : ℚ)
      else 1 - |(p.1 : ℚ) - (p.2 : ℚ)| / max (p.1 : ℚ) (p.2 : ℚ)) =
    ((c2.zip c1).map fun p => if p.1 = p.2 then (1 : ℚ)
      else 1 - |(p.1 : ℚ) - (p.2 : ℚ)| / max (p.1 : ℚ) (p.2 : ℚ)) := by
  induction c1 generalizing c2 with
  | nil => cases c2 <;> rfl
  | cons a as ih =>
    cases c2 with
    | nil => rfl
    | cons b bs =>
      rw [List.zip_cons_cons, List.zip_cons_cons, List.map_cons, List.map_cons, ih]
      congr 1
      by_cases h : a = b
      · rw [if_pos h, if_pos h.symm]
      · show _ = (if b = a then (1 : ℚ) else 1 - |(b : ℚ) - (a : ℚ)| / max (b : ℚ) (a : ℚ))
        rw [if_neg h, if_neg (fun he => h he.symm), abs_sub_comm, max_comm]

theorem compareLayout_comm (vs1 vs2 : List VisualElement) :
    compareLayout vs1 vs2 = compareLayout vs2 vs1 := by
  unfold compareLayout
  by_cases h1 : vs1 = []
  · by_cases h2 : vs2 = []
    · rw [if_pos ⟨h1, h2⟩, if_pos ⟨h2, h1⟩]
    · rw [if_neg (fun hc => h2 hc.2), if_pos (Or.inl h1),
        if_neg (fun hc => h2 hc.1), if_pos (Or.inr h1)]
  · by_cases h2 : vs2 = []
    · rw [if_neg (fun hc => h1 hc.1), if_pos (Or.inr h2),
        if_neg (fun hc => h1 hc.2), if_pos (Or.inl h2)]
    · rw [if_neg (show ¬(vs1 = [] ∧ vs2 = []) by tauto),
        if_neg (show ¬(vs1 = [] ∨ vs2 = []) by tauto),
        if_neg (show ¬(vs2 = [] ∧ vs1 = []) by tauto),
        if_neg (show ¬(vs2 = [] ∨ vs1 = []) by tauto)]
      dsimp only
      by_cases hc1 : pageCounts vs1 = []
      · by_cases hc2 : pageCounts vs2 = []
        · rw [if_pos ⟨hc1, hc2⟩, if_pos ⟨hc2, hc1⟩]
        · rw [if_neg (fun hc => hc2 hc.2), if_pos (Or.inl hc1),
            if_neg (fun hc => hc2 hc.1), if_pos (Or.inr hc1)]
      · by_cases hc2 : pageCounts vs2 = []
        · rw [if_neg (fun hc => hc1 hc.1), if_pos (Or.inr hc2),
            if_neg (fun hc => hc1 hc.2), if_pos (Or.inl hc2)]
        · rw [if_neg (show ¬(pageCounts vs1 = [] ∧ pageCounts vs2 = []) by tauto),
            if_neg (show ¬(pageCounts vs1 = [] ∨ pageCounts vs2 = []) by tauto),
            if_neg (show ¬(pageCounts vs2 = [] ∧ pageCounts vs1 = []) by tauto),
            if_neg (show ¬(pageCounts vs2 = [] ∨ pageCounts vs1 = []) by tauto),
            min_comm ((pageCounts vs2).length), max_comm ((pageCounts vs2).length),
            layout_sims_comm]

theorem compareFilters_comm (vs1 vs2 : List VisualElement) :
    compareFilters vs1 vs2 = compareFilters vs2 vs1 := by
  unfold compareFilters
  dsimp only
  by_cases h1 : filterVisuals vs1 = [] <;> by_cases h2 : filterVisuals vs2 = [] <;>
    simp [h1, h2, jaccardQ_comm]

/-! ### Range lemmas -/

theorem oneSubRatioBounds (a b : ℕ) :
    0 ≤ 1 - |(a : ℚ) - (b : ℚ)| / max (a : ℚ) (b : ℚ) ∧
    1 - |(a : ℚ) - (b : ℚ)| / max (a : ℚ) (b : ℚ) ≤ 1 := by
  by_cases hab : a = 0 ∧ b = 0
  · rw [hab.1, hab.2]
    norm_num
  · have hmax : (0 : ℚ) < max (a : ℚ) (b : ℚ) := by
      rcases Nat.eq_zero_or_pos a with ha | ha
      · have hb : 0 < b := by
          rcases Nat.eq_zero_or_pos b with hb | hb
          · exact absurd ⟨ha, hb⟩ hab
          · exact hb
        exact lt_max_of_lt_right (by exact_mod_cast hb)
      · exact lt_max_of_lt_left (by exact_mod_cast ha)
    have habs : |(a : ℚ) - (b : ℚ)| ≤ max (a : ℚ) (b : ℚ) := by
      rw [abs_sub_le_iff]
      constructor
      · calc (a : ℚ) - b ≤ (a : ℚ) := sub_le_self _ (Nat.cast_nonneg b)
          _ ≤ max (a : ℚ) (b : ℚ) := le_max_left _ _
      · calc (b : ℚ) - a ≤ (b : ℚ) := sub_le_self _ (Nat.cast_nonneg a)
          _ ≤ max (a : ℚ) (b : ℚ) := le_max_right _ _
    have hdiv0 : 0 ≤ |(a : ℚ) - (b : ℚ)| / max (a : ℚ) (b : ℚ) :=
      div_nonneg (abs_nonneg _) hmax.le
    have hdiv1 : |(a : ℚ) - (b : ℚ)| / max (a : ℚ) (b : ℚ) ≤ 1 :=
      div_le_one_of_le₀ habs hmax.le
    constructor
    · linarith
    · linarith

theorem weightedPairBounds {x y w1 w2 : ℚ} (hx : 0 ≤ x ∧ x ≤ 1) (hy : 0 ≤ y ∧ y ≤ 1)
    (hw1 : 0 ≤ w1) (hw2 : 0 ≤ w2) (hsum : w1 + w2 ≤ 1) :
    0 ≤ x * w1 + y * w2 ∧ x * w1 + y * w2 ≤ 1 := by
  constructor
  · exact add_nonneg (mul_nonneg hx.1 hw1) (mul_nonneg hy.1 hw2)
  · have h1 : x * w1 ≤ w1 := mul_le_of_le_one_left hw1 hx.2
    have h2 : y * w2 ≤ w2 := mul_le_of_le_one_left hw2 hy.2
    linarith

theorem jaccardQ_bounds (s1 s2 : Finset String) : 0 ≤ jaccardQ s1 s2 ∧ jaccardQ s1 s2 ≤ 1 :=
  ⟨jaccardQ_nonneg s1 s2, jaccardQ_le_one s1 s2⟩

theorem indicatorSim_bounds (a b : ℕ) : 0 ≤ indicatorSim a b ∧ indicatorSim a b ≤ 1 := by
  unfold indicatorSim
  by_cases h1 : a = 0 ∧ b = 0
  · rw [if_pos h1]
    norm_num
  · rw [if_neg h1]
    by_cases h2 : a = 0 ∨ b = 0
    · rw [if_pos h2]
      norm_num
    · rw [if_neg h2]
      exact oneSubRatioBounds a b

theorem listAvg_bounds {l : List ℚ} (h : ∀ x ∈ l, 0 ≤ x ∧ x ≤ 1) :
    0 ≤ listAvg l ∧ listAvg l ≤ 1 :=
  ⟨listAvg_nonneg fun x hx => (h x hx).1, listAvg_le_one fun x hx => (h x hx).2⟩

theorem functionSimilarity_bounds (l1 l2 : List String) :
    0 ≤ functionSimilarity l1 l2 ∧ functionSimilarity l1 l2 ≤ 1 := by
  unfold functionSimilarity
  by_cases h1 : l1 = [] ∧ l2 = []
  · rw [if_pos h1]
    norm_num
  · rw [if_neg h1]
    by_cases h2 : l1 = [] ∨ l2 = []
    · rw [if_pos h2]
      norm_num
    · rw [if_neg h2]
      exact jaccardQ_bounds _ _

theorem structureSimilarity_bounds (ind1 ind2 : List (String × Nat)) :
    0 ≤ structureSimilarity ind1 ind2 ∧ structureSimilarity ind1 ind2 ≤ 1 := by
  unfold structureSimilarity
  by_cases h1 : ind1 = [] ∧ ind2 = []
  · rw [if_pos h1]
    norm_num
  · rw [if_neg h1]
    apply listAvg_bounds
    intro x hx
    obtain ⟨k, _, rfl⟩ := List.mem_map.mp hx
    exact indicatorSim_bounds _ _

theorem posMatchCount_le_left : ∀ l1 l2 : List Char, posMatchCount l1 l2 ≤ l1.length := by
  intro l1
  induction l1 with
  | nil => intro l2; cases l2 <;> simp [posMatchCount]
  | cons a as ih =>
    intro l2
    cases l2 with
    | nil => show 0 ≤ _; exact Nat.zero_le _
    | cons b bs =>
      show (if a = b then 1 else 0) + posMatchCount as bs ≤ as.length + 1
      have := ih bs
      by_cases h : a = b
      · rw [if_pos h]
        omega
      · rw [if_neg h]
        omega

theorem stringSimilarity_bounds (f1 f2 : String) :
    0 ≤ stringSimilarity f1 f2 ∧ stringSimilarity f1 f2 ≤ 1 := by
  unfold stringSimilarity
  by_cases h1 : f1 = "" ∧ f2 = ""
  · rw [if_pos h1]
    norm_num
  · rw [if_neg h1]
    by_cases h2 : f1 = "" ∨ f2 = ""
    · rw [if_pos h2]
      norm_num
    · rw [if_neg h2]
      dsimp only
      by_cases hn : normalizeFormula f1 = normalizeFormula f2
      · rw [if_pos hn]
        norm_num
      · rw [if_neg hn]
        by_cases hm : max (normalizeFormula f1).length (normalizeFormula f2).length = 0
        · rw [if_pos hm]
          norm_num
        · rw [if_neg hm]
          have hmQ : (0 : ℚ) <
              ((max (normalizeFormula f1).length (normalizeFormula f2).length : ℕ) : ℚ) := by
            exact_mod_cast Nat.pos_of_ne_zero hm
          constructor
          · exact div_nonneg (Nat.cast_nonneg _) hmQ.le
          · apply div_le_one_of_le₀ _ hmQ.le
            exact_mod_cast le_trans (posMatchCount_le_left _ _)
              (le_max_left (normalizeFormula f1).length (normalizeFormula f2).length)

theorem compare_measures_overall_bounds (m1 m2 : DAXMeasure) :
    0 ≤ (compare_measures m1 m2).overall_similarity ∧
    (compare_measures m1 m2).overall_similarity ≤ 1 := by
  have hf := functionSimilarity_bounds (analyze_dax_formula m1.dax_formula).used_functions
    (analyze_dax_formula m2.dax_formula).used_functions
  have hs := structureSimilarity_bounds (analyze_dax_formula m1.dax_formula).complexity_indicators
    (analyze_dax_formula m2.dax_formula).complexity_indicators
  have ht := stringSimilarity_bounds m1.dax_formula m2.dax_formula
  show 0 ≤ functionSimilarity (analyze_dax_formula m1.dax_formula).used_functions
        (analyze_dax_formula m2.dax_formula).used_functions * 0.4 +
      structureSimilarity (analyze_dax_formula m1.dax_formula).complexity_indicators
        (analyze_dax_formula m2.dax_formula).complexity_indicators * 0.3 +
      stringSimilarity m1.dax_formula m2.dax_formula * 0.3 ∧
    functionSimilarity (analyze_dax_formula m1.dax_formula).used_functions
        (analyze_dax_formula m2.dax_formula).used_functions * 0.4 +
      structureSimilarity (analyze_dax_formula m1.dax_formula).complexity_indicators
        (analyze_dax_formula m2.dax_formula).complexity_indicators * 0.3 +
      stringSimilarity m1.dax_formula m2.dax_formula * 0.3 ≤ 1
  constructor
  · have := mul_nonneg hf.1 (by norm_num : (0 : ℚ) ≤ 0.4)
    have := mul_nonneg hs.1 (by norm_num : (0 : ℚ) ≤ 0.3)
    have := mul_nonneg ht.1 (by norm_num : (0 : ℚ) ≤ 0.3)
    linarith
  · have := mul_le_of_le_one_left (by norm_num : (0 : ℚ) ≤ 0.4) hf.2
    have := mul_le_of_le_one_left (by norm_num : (0 : ℚ) ≤ 0.3) hs.2
    have := mul_le_of_le_one_left (by norm_num : (0 : ℚ) ≤ 0.3) ht.2
    linarith

theorem compareMeasures_bounds (ms1 ms2 : List DAXMeasure) :
    0 ≤ compareMeasures ms1 ms2 ∧ compareMeasures ms1 ms2 ≤ 1 := by
  unfold compareMeasures
  by_cases h1 : ms1 = [] ∧ ms2 = []
  · rw [if_pos h1]
    norm_num
  · rw [if_neg h1]
    by_cases h2 : ms1 = [] ∨ ms2 = []
    · rw [if_pos h2]
      norm_num
    · rw [if_neg h2]
      apply weightedPairBounds (jaccardQ_bounds _ _) _ (by norm_num) (by norm_num) (by norm_num)
      apply listAvg_bounds
      intro x hx
      obtain ⟨m1, _, hx1⟩ := List.mem_flatMap.mp hx
      obtain ⟨m2, _, rfl⟩ := List.mem_map.mp hx1
      exact compare_measures_overall_bounds m1 m2

theorem typeSims_bounds (vs1 vs2 : List VisualElement) :
    ∀ x ∈ typeSims vs1 vs2, 0 ≤ x ∧ x ≤ 1 := by
  intro x hx
  obtain ⟨t, _, hsome⟩ := List.mem_filterMap.mp hx
  by_cases hb1 : typeCount vs1 t = 0 ∧ typeCount vs2 t = 0
  · rw [if_pos hb1] at hsome
    exact absurd hsome (by simp)
  · rw [if_neg hb1] at hsome
    by_cases hb2 : typeCount vs1 t = 0 ∨ typeCount vs2 t = 0
    · rw [if_pos hb2] at hsome
      rw [← Option.some.inj hsome]
      norm_num
    · rw [if_neg hb2] at hsome
      rw [← Option.some.inj hsome]
      exact oneSubRatioBounds _ _

theorem compareVisuals_bounds (vs1 vs2 : List VisualElement) :
    0 ≤ compareVisuals vs1 vs2 ∧ compareVisuals vs1 vs2 ≤ 1 := by
  unfold compareVisuals
  by_cases h1 : vs1 = [] ∧ vs2 = []
  · rw [if_pos h1]
    norm_num
  · rw [if_neg h1]
    by_cases h2 : vs1 = [] ∨ vs2 = []
    · rw [if_pos h2]
      norm_num
    · rw [if_neg h2]
      exact weightedPairBounds (listAvg_bounds (typeSims_bounds vs1 vs2))
        (jaccardQ_bounds _ _) (by norm_num) (by norm_num) (by norm_num)

theorem compareDataModel_bounds (ts1 ts2 : List DataTable) :
    0 ≤ compareDataModel ts1 ts2 ∧ compareDataModel ts1 ts2 ≤ 1 := by
  unfold compareDataModel
  by_cases h1 : ts1 = [] ∧ ts2 = []
  · rw [if_pos h1]
    norm_num
  · rw [if_neg h1]
    by_cases h2 : ts1 = [] ∨ ts2 = []
    · rw [if_pos h2]
      norm_num
    · rw [if_neg h2]
      exact jaccardQ_bounds _ _

theorem compareLayout_bounds (vs1 vs2 : List VisualElement) :
    0 ≤ compareLayout vs1 vs2 ∧ compareLayout vs1 vs2 ≤ 1 := by
  unfold compareLayout
  by_cases h1 : vs1 = [] ∧ vs2 = []
  · rw [if_pos h1]
    norm_num
  · rw [if_neg h1]
    by_cases h2 : vs1 = [] ∨ vs2 = []
    · rw [if_pos h2]
      norm_num
    · rw [if_neg h2]
      dsimp only
      by_cases h3 : pageCounts vs1 = [] ∧ pageCounts vs2 = []
      · rw [if_pos h3]
        norm_num
      · rw [if_neg h3]
        by_cases h4 : pageCounts vs1 = [] ∨ pageCounts vs2 = []
        · rw [if_pos h4]
          norm_num
        · rw [if_neg h4]
          by_cases h5 : min (pageCounts vs1).length (pageCounts vs2).length = 0
          · rw [if_pos h5]
            norm_num
          · rw [if_neg h5]
            by_cases h6 : ((pageCounts vs1).zip (pageCounts vs2)).map (fun p =>
                if p.1 = p.2 then (1 : ℚ)
                else 1 - |(p.1 : ℚ) - (p.2 : ℚ)| / max (p.1 : ℚ) (p.2 : ℚ)) = []
            · rw [if_pos h6]
              norm_num
            · rw [if_neg h6]
              have hsims : ∀ x ∈ ((pageCounts vs1).zip (pageCounts vs2)).map (fun p =>
                  if p.1 = p.2 then (1 : ℚ)
                  else 1 - |(p.1 : ℚ) - (p.2 : ℚ)| / max (p.1 : ℚ) (p.2 : ℚ)),
                  0 ≤ x ∧ x ≤ 1 := by
                intro x hx
                obtain ⟨p, _, rfl⟩ := List.mem_map.mp hx
                by_cases hp : p.1 = p.2
                · rw [if_pos hp]
                  norm_num
                · rw [if_neg hp]
                  exact oneSubRatioBounds _ _
              have havg : 0 ≤ (((pageCounts vs1).zip (pageCounts vs2)).map (fun p =>
                  if p.1 = p.2 then (1 : ℚ)
                  else 1 - |(p.1 : ℚ) - (p.2 : ℚ)| / max (p.1 : ℚ) (p.2 : ℚ))).sum /
                  ((((pageCounts vs1).zip (pageCounts vs2)).map (fun p =>
                  if p.1 = p.2 then (1 : ℚ)
                  else 1 - |(p.1 : ℚ) - (p.2 : ℚ)| / max (p.1 : ℚ) (p.2 : ℚ))).length : ℚ) ∧
                  (((pageCounts vs1).zip (pageCounts vs2)).map (fun p =>
                  if p.1 = p.2 then (1 : ℚ)
                  else 1 - |(p.1 : ℚ) - (p.2 : ℚ)| / max (p.1 : ℚ) (p.2 : ℚ))).sum /
                  ((((pageCounts vs1).zip (pageCounts vs2)).map (fun p =>
                  if p.1 = p.2 then (1 : ℚ)
                  else 1 - |(p.1 : ℚ) - (p.2 : ℚ)| / max (p.1 : ℚ) (p.2 : ℚ))).length : ℚ) ≤ 1 := by
                have := listAvg_bounds hsims
                unfold listAvg at this
                rw [if_neg h6] at this
                exact this
              have hpen : 0 ≤ ((min (pageCounts vs1).length (pageCounts vs2).length : ℕ) : ℚ) /
                  ((max (pageCounts vs1).length (pageCounts vs2).length : ℕ) : ℚ) ∧
                  ((min (pageCounts vs1).length (pageCounts vs2).length : ℕ) : ℚ) /
                  ((max (pageCounts vs1).length (pageCounts vs2).length : ℕ) : ℚ) ≤ 1 := by
                have hmaxpos : (0 : ℚ) <
                    ((max (pageCounts vs1).length (pageCounts vs2).length : ℕ) : ℚ) := by
                  have : min (pageCounts vs1).length (pageCounts vs2).length ≤
                      max (pageCounts vs1).length (pageCounts vs2).length :=
                    le_trans (Nat.min_le_left _ _) (Nat.le_max_left _ _)
                  exact_mod_cast Nat.pos_of_ne_zero (fun hc => h5 (by omega))
                constructor
                · exact div_nonneg (Nat.cast_nonneg _) hmaxpos.le
                · apply div_le_one_of_le₀ _ hmaxpos.le
                  exact_mod_cast le_trans (Nat.min_le_left _ _) (Nat.le_max_left _ _)
              constructor
              · exact mul_nonneg havg.1 hpen.1
              · exact mul_le_one₀ havg.2 hpen.1 hpen.2

theorem compareFilters_bounds (vs1 vs2 : List VisualElement) :
    0 ≤ compareFilters vs1 vs2 ∧ compareFilters vs1 vs2 ≤ 1 := by
  unfold compareFilters
  dsimp only
  by_cases h1 : filterVisuals vs1 = [] ∧ filterVisuals vs2 = []
  · rw [if_pos h1]
    norm_num
  · rw [if_neg h1]
    by_cases h2 : filterVisuals vs1 = [] ∨ filterVisuals vs2 = []
    · rw [if_pos h2]
      norm_num
    · rw [if_neg h2]
      exact jaccardQ_bounds _ _

/-! ### Grouping lemmas -/

theorem EdgeRel_symm {scores : List SimilarityScore} {x y : String}
    (h : EdgeRel scores x y) : EdgeRel scores y x := by
  obtain ⟨s, hs, hth, hc⟩ := h
  exact ⟨s, hs, hth, hc.symm⟩

theorem Connects_symm {scores : List SimilarityScore} {x y : String}
    (h : Connects scores x y) : Connects scores y x :=
  Relation.ReflTransGen.symmetric (fun _ _ hab => EdgeRel_symm hab) h

theorem Connects_trans {scores : List SimilarityScore} {x y z : String}
    (h1 : Connects scores x y) (h2 : Connects scores y z) : Connects scores x z :=
  Relation.ReflTransGen.trans h1 h2

theorem mem_neighbors {scores : List SimilarityScore} {x y : String} :
    y ∈ neighbors scores x ↔ EdgeRel scores x y := by
  unfold neighbors EdgeRel
  rw [List.mem_dedup, List.mem_append]
  constructor
  · rintro (h | h)
    · obtain ⟨s, hs, rfl⟩ := List.mem_map.mp h
      obtain ⟨hs', hcond⟩ := List.mem_filter.mp hs
      have hc := of_decide_eq_true hcond
      exact ⟨s, hs', hc.1, Or.inl ⟨hc.2, rfl⟩⟩
    · obtain ⟨s, hs, rfl⟩ := List.mem_map.mp h
      obtain ⟨hs', hcond⟩ := List.mem_filter.mp hs
      have hc := of_decide_eq_true hcond
      exact ⟨s, hs', hc.1, Or.inr ⟨rfl, hc.2⟩⟩
  · rintro ⟨s, hs, hth, ⟨h1, h2⟩ | ⟨h1, h2⟩⟩
    · exact Or.inl (List.mem_map.mpr
        ⟨s, List.mem_filter.mpr ⟨hs, decide_eq_true ⟨hth, h1⟩⟩, h2⟩)
    · exact Or.inr (List.mem_map.mpr
        ⟨s, List.mem_filter.mpr ⟨hs, decide_eq_true ⟨hth, h2⟩⟩, h1⟩)

theorem edge_snd_mem_universe {profiles : List DashboardProfile}
    {scores : List SimilarityScore} {x y : String} (h : EdgeRel scores x y) :
    y ∈ nodeUniverse profiles scores := by
  obtain ⟨s, hs, _, hc⟩ := h
  unfold nodeUniverse
  rcases hc with ⟨h1, h2⟩ | ⟨h1, h2⟩
  · exact Finset.mem_union_right _ (List.mem_toFinset.mpr (List.mem_map.mpr ⟨s, hs, h2⟩))
  · exact Finset.mem_union_left _
      (Finset.mem_union_right _ (List.mem_toFinset.mpr (List.mem_map.mpr ⟨s, hs, h1⟩)))

theorem connects_mem_universe {profiles : List DashboardProfile}
    {scores : List SimilarityScore} {start y : String}
    (hs : start ∈ nodeUniverse profiles scores) (h : Connects scores start y) :
    y ∈ nodeUniverse profiles scores := by
  induction h with
  | refl => exact hs
  | tail _ he _ => exact edge_snd_mem_universe he

theorem not_mem_closed_of_connects {scores : List SimilarityScore} {V : Finset String}
    (hV : EdgeClosed scores V) {x y : String} (hx : x ∉ V) (h : Connects scores x y) :
    y ∉ V := by
  induction h with
  | refl => exact hx
  | tail _ he ih =>
    intro hyV
    exact ih (hV _ hyV _ (EdgeRel_symm he))

theorem nodup_length_le_card {l : List String} {U : Finset String} (hnd : l.Nodup)
    (hsub : ∀ x ∈ l, x ∈ U) : l.length ≤ U.card := by
  have h1 : l.toFinset.card = l.length := List.toFinset_card_of_nodup hnd
  rw [← h1]
  exact Finset.card_le_card fun x hx => hsub x (List.mem_toFinset.mp hx)

theorem dfs_terminal {scores : List SimilarityScore} {V₀ visited group : Finset String}
    {start : String} (hV₀ : EdgeClosed scores V₀) (hs₀ : start ∉ V₀)
    (hgroup : ∀ x ∈ group, Connects scores start x)
    (hvis : visited = V₀ ∪ group)
    (hfront : ∀ x ∈ group, ∀ y, EdgeRel scores x y → y ∈ visited)
    (hstart : start ∈ group) :
    ∀ y, y ∈ group ↔ Connects scores start y := by
  intro y
  constructor
  · exact hgroup y
  · intro hr
    induction hr with
    | refl => exact hstart
    | tail _ he ih =>
      rename_i b c _
      have hcvis := hfront b ih c he
      rw [hvis] at hcvis
      rcases Finset.mem_union.mp hcvis with hc0 | hcg
      · exfalso
        have hb0 : b ∉ V₀ := not_mem_closed_of_connects hV₀ hs₀ (hgroup b ih)
        exact hb0 (hV₀ c hc0 b (EdgeRel_symm he))
      · exact hcg

theorem dfsLoop_spec {profiles : List DashboardProfile} {scores : List SimilarityScore}
    {start : String} {V₀ : Finset String}
    (hsU : start ∈ nodeUniverse profiles scores)
    (hV₀ : EdgeClosed scores V₀) (hs₀ : start ∉ V₀) :
    ∀ (fuel : Nat) (stack : List String) (visited group : Finset String),
      (∀ x ∈ stack, Connects scores start x) →
      (∀ x ∈ group, Connects scores start x) →
      visited = V₀ ∪ group →
      (∀ x ∈ group, ∀ y, EdgeRel scores x y → y ∈ visited ∨ y ∈ stack) →
      (start ∈ group ∨ start ∈ stack) →
      ((nodeUniverse profiles scores \ visited).card *
          ((nodeUniverse profiles scores).card + 1) + stack.length ≤ fuel) →
      (∀ y, y ∈ (dfsLoop (neighbors scores) fuel stack visited group).2 ↔
        Connects scores start y) ∧
      (dfsLoop (neighbors scores) fuel stack visited group).1 =
        V₀ ∪ (dfsLoop (neighbors scores) fuel stack visited group).2 := by
  intro fuel
  induction fuel with
  | zero =>
    intro stack visited group hstack hgroup hvis hfront hstart hfuel
    have hnil : stack = [] := by
      rcases stack with _ | ⟨c, rest⟩
      · rfl
      · exfalso
        rw [List.length_cons] at hfuel
        omega
    subst hnil
    have hstart' : start ∈ group := by
      rcases hstart with h | h
      · exact h
      · cases h
    have hfront' : ∀ x ∈ group, ∀ y, EdgeRel scores x y → y ∈ visited := by
      intro x hx y he
      rcases hfront x hx y he with h | h
      · exact h
      · cases h
    exact ⟨dfs_terminal hV₀ hs₀ hgroup hvis hfront' hstart', hvis⟩
  | succ fuel ih =>
    intro stack visited group hstack hgroup hvis hfront hstart hfuel
    rcases stack with _ | ⟨c, rest⟩
    · have hstart' : start ∈ group := by
        rcases hstart with h | h
        · exact h
        · cases h
      have hfront' : ∀ x ∈ group, ∀ y, EdgeRel scores x y → y ∈ visited := by
        intro x hx y he
        rcases hfront x hx y he with h | h
        · exact h
        · cases h
      exact ⟨dfs_terminal hV₀ hs₀ hgroup hvis hfront' hstart', hvis⟩
    · by_cases hc : c ∈ visited
      · have heq : dfsLoop (neighbors scores) (fuel + 1) (c :: rest) visited group =
            dfsLoop (neighbors scores) fuel rest visited group := by
          simp only [dfsLoop, if_pos hc]
        rw [heq]
        apply ih rest visited group
        · exact fun x hx => hstack x (List.mem_cons_of_mem _ hx)
        · exact hgroup
        · exact hvis
        · intro x hx y he
          rcases hfront x hx y he with h | h
          · exact Or.inl h
          · rcases List.mem_cons.mp h with rfl | hr
            · exact Or.inl hc
            · exact Or.inr hr
        · rcases hstart with h | h
          · exact Or.inl h
          · rcases List.mem_cons.mp h with rfl | hr
            · rw [hvis] at hc
              rcases Finset.mem_union.mp hc with h0 | hg
              · exact absurd h0 hs₀
              · exact Or.inl hg
            · exact Or.inr hr
        · rw [List.length_cons] at hfuel
          omega
      · have heq : dfsLoop (neighbors scores) (fuel + 1) (c :: rest) visited group =
            dfsLoop (neighbors scores) fuel
              (((neighbors scores c).filter fun n => decide (n ∉ insert c visited)) ++ rest)
              (insert c visited) (insert c group) := by
          simp only [dfsLoop, if_neg hc]
        rw [heq]
        have hreach_c : Connects scores start c := hstack c (List.mem_cons_self c rest)
        have hcU : c ∈ nodeUniverse profiles scores := connects_mem_universe hsU hreach_c
        apply ih
        · intro x hx
          rcases List.mem_append.mp hx with hpush | hrest
          · exact Relation.ReflTransGen.tail hreach_c
              (mem_neighbors.mp (List.mem_filter.mp hpush).1)
          · exact hstack x (List.mem_cons_of_mem _ hrest)
        · intro x hx
          rcases Finset.mem_insert.mp hx with rfl | hxg
          · exact hreach_c
          · exact hgroup x hxg
        · rw [hvis, Finset.union_insert]
        · intro x hx y he
          rcases Finset.mem_insert.mp hx with rfl | hxg
          · by_cases hy : y ∈ insert x visited
            · exact Or.inl hy
            · exact Or.inr (List.mem_append.mpr (Or.inl
                (List.mem_filter.mpr ⟨mem_neighbors.mpr he, decide_eq_true hy⟩)))
          · rcases hfront x hxg y he with h | h
            · exact Or.inl (Finset.mem_insert_of_mem h)
            · rcases List.mem_cons.mp h with rfl | hr
              · exact Or.inl (Finset.mem_insert_self _ _)
              · exact Or.inr (List.mem_append.mpr (Or.inr hr))
        · by_cases hsc : start = c
          · exact Or.inl (hsc ▸ Finset.mem_insert_self c group)
          · rcases hstart with h | h
            · exact Or.inl (Finset.mem_insert_of_mem h)
            · rcases List.mem_cons.mp h with he | hr
              · exact absurd he hsc
              · exact Or.inr (List.mem_append.mpr (Or.inr hr))
        · have hcmem : c ∈ nodeUniverse profiles scores \ visited :=
            Finset.mem_sdiff.mpr ⟨hcU, hc⟩
          have hpos : 0 < (nodeUniverse profiles scores \ visited).card :=
            Finset.card_pos.mpr ⟨c, hcmem⟩
          obtain ⟨m, hm⟩ := Nat.exists_eq_add_of_lt hpos
          simp only [Nat.zero_add] at hm
          have hcard' : (nodeUniverse profiles scores \ insert c visited).card = m := by
            rw [Finset.sdiff_insert, Finset.card_erase_of_mem hcmem, hm]
            omega
          have hpushes : ((neighbors scores c).filter
              fun n => decide (n ∉ insert c visited)).length ≤
              (nodeUniverse profiles scores).card := by
            apply nodup_length_le_card (List.Nodup.filter _ (List.nodup_dedup _))
            intro x hx
            exact edge_snd_mem_universe (mem_neighbors.mp (List.mem_filter.mp hx).1)
          rw [hcard', List.length_append]
          rw [hm, List.length_cons, add_one_mul] at hfuel
          set t := m * ((nodeUniverse profiles scores).card + 1) with ht
          omega

theorem find_connected_group_spec {profiles : List DashboardProfile}
    {scores : List SimilarityScore} {start : String} {V₀ : Finset String}
    (hsU : start ∈ nodeUniverse profiles scores)
    (hV₀ : EdgeClosed scores V₀) (hs₀ : start ∉ V₀) {fuel : Nat}
    (hfuel : (nodeUniverse profiles scores).card *
      ((nodeUniverse profiles scores).card + 1) + 1 ≤ fuel) :
    (∀ y, y ∈ (find_connected_group fuel (neighbors scores) start V₀).2 ↔
      Connects scores start y) ∧
    (find_connected_group fuel (neighbors scores) start V₀).1 =
      V₀ ∪ (find_connected_group fuel (neighbors scores) start V₀).2 := by
  unfold find_connected_group
  rw [if_neg hs₀]
  apply dfsLoop_spec hsU hV₀ hs₀ fuel [start] V₀ ∅
  · intro x hx
    rw [List.mem_singleton.mp hx]
  · intro x hx
    exact absurd hx (Finset.not_mem_empty x)
  · rw [Finset.union_empty]
  · intro x hx
    exact absurd hx (Finset.not_mem_empty x)
  · exact Or.inr (List.mem_singleton.mpr rfl)
  · have hle : (nodeUniverse profiles scores \ V₀).card ≤ (nodeUniverse profiles scores).card :=
      Finset.card_le_card (Finset.sdiff_subset)
    have := Nat.mul_le_mul_right ((nodeUniverse profiles scores).card + 1) hle
    rw [List.length_singleton]
    omega

theorem groupsAux_spec {profiles : List DashboardProfile} {scores : List SimilarityScore}
    {fuel : Nat}
    (hfuel : (nodeUniverse profiles scores).card *
      ((nodeUniverse profiles scores).card + 1) + 1 ≤ fuel) :
    ∀ (ps : List DashboardProfile) (visited : Finset String),
      EdgeClosed scores visited →
      (∀ p ∈ ps, p.dashboard_id ∈ nodeUniverse profiles scores) →
      (∀ g ∈ groupsAux (neighbors scores) fuel ps visited,
        2 ≤ g.card ∧ ∃ x, ∀ y, y ∈ g ↔ Connects scores x y) ∧
      (∀ p ∈ ps, p.dashboard_id ∉ visited →
        (∃ q, q ≠ p.dashboard_id ∧ Connects scores p.dashboard_id q) →
        ∃ g ∈ groupsAux (neighbors scores) fuel ps visited, p.dashboard_id ∈ g) := by
  intro ps
  induction ps with
  | nil =>
    intro visited _ _
    constructor
    · intro g hg
      simp only [groupsAux] at hg
      cases hg
    · intro q hq
      cases hq
  | cons p rest ih =>
    intro visited hcl hmem
    by_cases hpv : p.dashboard_id ∈ visited
    · have heq : groupsAux (neighbors scores) fuel (p :: rest) visited =
          groupsAux (neighbors scores) fuel rest visited := by
        simp only [groupsAux, if_pos hpv]
      rw [heq]
      obtain ⟨ha, hb⟩ := ih visited hcl (fun q hq => hmem q (List.mem_cons_of_mem _ hq))
      refine ⟨ha, ?_⟩
      intro q hq hqv hex
      rcases List.mem_cons.mp hq with rfl | hqr
      · exact absurd hpv hqv
      · exact hb q hqr hqv hex
    · have hspec := find_connected_group_spec (hmem p (List.mem_cons_self p rest)) hcl hpv hfuel
      set r := find_connected_group fuel (neighbors scores) p.dashboard_id visited with hr
      have hchar : ∀ y, y ∈ r.2 ↔ Connects scores p.dashboard_id y := hspec.1
      have hvfin : r.1 = visited ∪ r.2 := hspec.2
      have hcl' : EdgeClosed scores r.1 := by
        intro x hx y he
        rw [hvfin] at hx ⊢
        rcases Finset.mem_union.mp hx with hxv | hxr
        · exact Finset.mem_union_left _ (hcl x hxv y he)
        · exact Finset.mem_union_right _ ((hchar y).mpr
            (Relation.ReflTransGen.tail ((hchar x).mp hxr) he))
      have hpr : p.dashboard_id ∈ r.2 := (hchar _).mpr Relation.ReflTransGen.refl
      by_cases hbig : 1 < r.2.card
      · have heq : groupsAux (neighbors scores) fuel (p :: rest) visited =
            r.2 :: groupsAux (neighbors scores) fuel rest r.1 := by
          simp only [groupsAux, if_neg hpv]
          rw [← hr, if_pos hbig]
        rw [heq]
        obtain ⟨ha, hb⟩ := ih r.1 hcl' (fun q hq => hmem q (List.mem_cons_of_mem _ hq))
        constructor
        · intro g hg
          rcases List.mem_cons.mp hg with rfl | hgr
          · exact ⟨hbig, ⟨p.dashboard_id, hchar⟩⟩
          · exact ha g hgr
        · intro q hq hqv hex
          rcases List.mem_cons.mp hq with rfl | hqr
          · exact ⟨r.2, List.mem_cons_self _ _, hpr⟩
          · by_cases hqr1 : q.dashboard_id ∈ r.1
            · rw [hvfin] at hqr1
              rcases Finset.mem_union.mp hqr1 with h | h
              · exact absurd h hqv
              · exact ⟨r.2, List.mem_cons_self _ _, h⟩
            · obtain ⟨g, hg, hgmem⟩ := hb q hqr hqr1 hex
              exact ⟨g, List.mem_cons_of_mem _ hg, hgmem⟩
      · have heq : groupsAux (neighbors scores) fuel (p :: rest) visited =
            groupsAux (neighbors scores) fuel rest r.1 := by
          simp only [groupsAux, if_neg hpv]
          rw [← hr, if_neg hbig]
        rw [heq]
        obtain ⟨ha, hb⟩ := ih r.1 hcl' (fun q hq => hmem q (List.mem_cons_of_mem _ hq))
        have hsingle : r.2 = {p.dashboard_id} := by
          apply Finset.eq_singleton_iff_unique_mem.mpr
          refine ⟨hpr, fun y hy => ?_⟩
          by_contra hne
          exact hbig (Finset.one_lt_card.mpr ⟨y, hy, p.dashboard_id, hpr, hne⟩)
        refine ⟨ha, ?_⟩
        intro q hq hqv hex
        rcases List.mem_cons.mp hq with rfl | hqr
        · obtain ⟨q', hne, hreach⟩ := hex
          have hq' : q' ∈ r.2 := (hchar q').mpr hreach
          rw [hsingle] at hq'
          exact absurd (Finset.mem_singleton.mp hq') hne
        · by_cases hqr1 : q.dashboard_id ∈ r.1
          · rw [hvfin] at hqr1
            rcases Finset.mem_union.mp hqr1 with h | h
            · exact absurd h hqv
            · rw [hsingle, Finset.mem_singleton] at h
              obtain ⟨q', hne, hreach⟩ := hex
              have hq' : q' ∈ r.2 := (hchar q').mpr (h ▸ hreach)
              rw [hsingle, Finset.mem_singleton] at hq'
              exact absurd (hq'.trans h.symm) hne
          · exact hb q hqr hqr1 hex

/-! ### Claims -/

/-- C1: for every pair of dashboard profiles compared under the default
weights, `total_score` is exactly `0.4·measures + 0.3·visuals +
0.2·data_model + 0.1·layout` of the breakdown sub-scores, while the
filters sub-score is computed and stored in the breakdown (it equals the
filter comparison of the two dashboards) but does not enter the weighted
total. -/
theorem C1_default_total_ignores_filters (d1 d2 : DashboardProfile) :
    (compare_dashboards d1 d2 default_weights).total_score =
      0.4 * (compare_dashboards d1 d2 default_weights).breakdown.measures_score +
      0.3 * (compare_dashboards d1 d2 default_weights).breakdown.visuals_score +
      0.2 * (compare_dashboards d1 d2 default_weights).breakdown.data_model_score +
      0.1 * (compare_dashboards d1 d2 default_weights).breakdown.layout_score ∧
    (compare_dashboards d1 d2 default_weights).breakdown.filters_score =
      compareFilters d1.visual_elements d2.visual_elements := by
  refine ⟨?_, rfl⟩
  show compareMeasures d1.measures d2.measures * (0.4 : ℚ) +
      compareVisuals d1.visual_elements d2.visual_elements * 0.3 +
      compareDataModel d1.tables d2.tables * 0.2 +
      compareLayout d1.visual_elements d2.visual_elements * 0.1 =
    0.4 * compareMeasures d1.measures d2.measures +
      0.3 * compareVisuals d1.visual_elements d2.visual_elements +
      0.2 * compareDataModel d1.tables d2.tables +
      0.1 * compareLayout d1.visual_elements d2.visual_elements
  ring

/-- C2: the recommendation of a group is driven by its average similarity
(≥0.85 → merge/medium/5, ≥0.70 → consolidate/high/3, otherwise
review/low/1); when the group's total measure count exceeds 50 or its
total visual count exceeds 100, effort medium is bumped to high (high
stays high) and priority drops by one, floored at 1; in particular
average 0.90 with 60 total measures yields merge/high/4. -/
theorem C2_recommendation_rules (group_profiles : List DashboardProfile) (avg : ℚ) :
    ((0.85 : ℚ) ≤ avg →
      (generate_recommendation group_profiles avg).action = "merge" ∧
      (¬ (50 < (group_profiles.map fun p => p.measures.length).sum ∨
            100 < (group_profiles.map fun p => p.visual_elements.length).sum) →
        (generate_recommendation group_profiles avg).effort_estimate = "medium" ∧
        (generate_recommendation group_profiles avg).priority = 5) ∧
      ((50 < (group_profiles.map fun p => p.measures.length).sum ∨
            100 < (group_profiles.map fun p => p.visual_elements.length).sum) →
        (generate_recommendation group_profiles avg).effort_estimate = "high" ∧
        (generate_recommendation group_profiles avg).priority = 4)) ∧
    ((0.70 : ℚ) ≤ avg → avg < 0.85 →
      (generate_recommendation group_profiles avg).action = "consolidate" ∧
      (generate_recommendation group_profiles avg).effort_estimate = "high" ∧
      (generate_recommendation group_profiles avg).priority =
        (if 50 < (group_profiles.map fun p => p.measures.length).sum ∨
            100 < (group_profiles.map fun p => p.visual_elements.length).sum then 2 else 3)) ∧
    (avg < 0.70 →
      (generate_recommendation group_profiles avg).action = "review" ∧
      (generate_recommendation group_profiles avg).effort_estimate = "low" ∧
      (generate_recommendation group_profiles avg).priority = 1) ∧
    ((group_profiles.map fun p => p.measures.length).sum = 60 →
      (0.9 : ℚ) ≤ avg →
      generate_recommendation group_profiles avg = ⟨"merge", "high", 4⟩) := by
  refine ⟨fun hm => ?_, fun hr hm => ?_, fun hr => ?_, fun h60 hm => ?_⟩
  · refine ⟨?_, fun hesc => ?_, fun hesc => ?_⟩
    · by_cases hesc : 50 < (group_profiles.map fun p => p.measures.length).sum ∨
          100 < (group_profiles.map fun p => p.visual_elements.length).sum <;>
        simp [generate_recommendation, merge_threshold, hm, hesc]
    · simp [generate_recommendation, merge_threshold, hm, hesc]
    · refine ⟨?_, ?_⟩ <;> simp [generate_recommendation, merge_threshold, hm, hesc]
  · have h85 : ¬ (0.85 : ℚ) ≤ avg := not_le.mpr hm
    have hesc : (50 < (group_profiles.map fun p => p.measures.length).sum ∨
        100 < (group_profiles.map fun p => p.visual_elements.length).sum) ∨
        ¬ (50 < (group_profiles.map fun p => p.measures.length).sum ∨
        100 < (group_profiles.map fun p => p.visual_elements.length).sum) := em _
    rcases hesc with hesc | hesc <;>
      simp [generate_recommendation, merge_threshold, review_threshold, h85, hr, hesc]
  · have h85 : ¬ (0.85 : ℚ) ≤ avg := not_le.mpr (by linarith)
    have h70 : ¬ (0.70 : ℚ) ≤ avg := not_le.mpr hr
    by_cases hesc : 50 < (group_profiles.map fun p => p.measures.length).sum ∨
        100 < (group_profiles.map fun p => p.visual_elements.length).sum <;>
      simp [generate_recommendation, merge_threshold, review_threshold, h85, h70, hesc]
  · have hm85 : (0.85 : ℚ) ≤ avg := by linarith
    have hesc : 50 < (group_profiles.map fun p => p.measures.length).sum ∨
        100 < (group_profiles.map fun p => p.visual_elements.length).sum := Or.inl (by omega)
    simp [generate_recommendation, merge_threshold, hm85, hesc]

/-- C2 witness: the theorem applied to an empty group with average 0.9 and
to the sixty-measure group of Example 3. -/
theorem C2_recommendation_rules_witness :
    (generate_recommendation [] (9/10)).action = "merge" ∧
    (generate_recommendation [] (9/10)).priority = 5 ∧
    generate_recommendation [sixtyMeasureProfile] (9/10) = ⟨"merge", "high", 4⟩ := by
  have h1 := C2_recommendation_rules [] (9/10)
  have h2 := C2_recommendation_rules [sixtyMeasureProfile] (9/10)
  refine ⟨(h1.1 (by norm_num)).1, ((h1.1 (by norm_num)).2.1 (by simp)).2, ?_⟩
  exact h2.2.2.2 (by simp [sixtyMeasureProfile]) (by norm_num)

/-- C9: the batch similarity endpoint fails precisely when fewer than two
dashboard profiles have been supplied; with at least two profiles it
returns a successful result (the embedded engine itself is total, so no
other failure source exists). -/
theorem C9_insufficient_corpus (profiles : List DashboardProfile) :
    (∃ e, analyze_similarity profiles = Except.error e) ↔ profiles.length < 2 := by
  unfold analyze_similarity
  split
  · rename_i h
    exact ⟨fun _ => h, fun _ => ⟨_, rfl⟩⟩
  · rename_i h
    exact ⟨fun ⟨e, he⟩ => by simp at he, fun hlt => absurd hlt h⟩

/-- C9 witness: the theorem applied to the empty profile list. -/
theorem C9_insufficient_corpus_witness :
    ∃ e, analyze_similarity [] = Except.error e :=
  (C9_insufficient_corpus []).mpr (by simp)

/-- C8 counterexample: the structure sub-metric applied to an empty
indicator map on the left and the non-empty map `{nested_functions: 0}`
on the right — exactly one input empty — returns 1, not 0 as the claim
states. -/
theorem C8_counterexample_one_empty_structure :
    structureSimilarity [] [("nested_functions", 0)] = 1 ∧ (1 : ℚ) ≠ 0 := by
  constructor
  · have hk : indicatorKeys [] [("nested_functions", 0)] = ["nested_functions"] := by decide
    unfold structureSimilarity
    rw [if_neg (by simp), hk]
    norm_num [lookup0, indicatorSim, listAvg]
  · norm_num

/-- C8 (amended): both-empty → 1.0 and exactly-one-empty → 0.0 hold for
the function-set and positional-string sub-metrics; the structure
sub-metric returns 1.0 when both indicator maps are empty but has no
dedicated one-empty case: against an empty side, each indicator of the
non-empty side contributes through the per-indicator rule with the
missing value read as 0.  Per indicator, zero against nonzero
contributes 0.0 and two nonzero values a, b contribute
`1 - |a-b|/max(a,b)`. -/
theorem C8_amended_empty_conventions :
    (functionSimilarity [] [] = 1) ∧
    (∀ fs1 fs2 : List String, (fs1 = [] ∧ fs2 ≠ []) ∨ (fs1 ≠ [] ∧ fs2 = []) →
      functionSimilarity fs1 fs2 = 0) ∧
    (stringSimilarity "" "" = 1) ∧
    (∀ f1 f2 : String, (f1 = "" ∧ f2 ≠ "") ∨ (f1 ≠ "" ∧ f2 = "") →
      stringSimilarity f1 f2 = 0) ∧
    (structureSimilarity [] [] = 1) ∧
    (∀ ind : List (String × Nat), ind ≠ [] → (ind.map Prod.fst).Nodup →
      structureSimilarity [] ind = listAvg (ind.map fun p => indicatorSim 0 p.2)) ∧
    (∀ a b : Nat, (a = 0 ∧ b ≠ 0) ∨ (a ≠ 0 ∧ b = 0) → indicatorSim a b = 0) ∧
    (∀ a b : Nat, a ≠ 0 → b ≠ 0 →
      indicatorSim a b = 1 - |(a : ℚ) - (b : ℚ)| / max (a : ℚ) (b : ℚ)) := by
  refine ⟨?_, fun fs1 fs2 h => ?_, ?_, fun f1 f2 h => ?_, ?_,
    fun ind h1 h2 => structureSimilarity_empty_left h1 h2, fun a b h => ?_, fun a b h1 h2 => ?_⟩
  · unfold functionSimilarity
    rw [if_pos ⟨rfl, rfl⟩]
  · unfold functionSimilarity
    rw [if_neg (by tauto), if_pos (by tauto)]
  · unfold stringSimilarity
    rw [if_pos ⟨rfl, rfl⟩]
  · unfold stringSimilarity
    rw [if_neg (by tauto), if_pos (by tauto)]
  · unfold structureSimilarity
    rw [if_pos ⟨rfl, rfl⟩]
  · unfold indicatorSim
    rw [if_neg (by tauto), if_pos (by tauto)]
  · unfold indicatorSim
    rw [if_neg (by tauto), if_neg (by tauto)]

/-- C8 witness: the amended theorem applied at concrete inputs of each
kind. -/
theorem C8_amended_empty_conventions_witness :
    functionSimilarity ["SUM"] [] = 0 ∧
    stringSimilarity "SUM(A)" "" = 0 ∧
    structureSimilarity [] [("filter_contexts", 2)] =
      listAvg [indicatorSim 0 2] ∧
    indicatorSim 0 2 = 0 ∧
    indicatorSim 2 3 = 1 - |(2 : ℚ) - 3| / max (2 : ℚ) 3 := by
  have h := C8_amended_empty_conventions
  refine ⟨h.2.1 ["SUM"] [] (Or.inr ⟨by simp, rfl⟩),
    h.2.2.2.1 "SUM(A)" "" (Or.inr ⟨by simp, rfl⟩), ?_,
    h.2.2.2.2.2.2.1 0 2 (Or.inl ⟨rfl, by simp⟩),
    h.2.2.2.2.2.2.2 2 3 (by simp) (by simp)⟩
  have h6 := h.2.2.2.2.2.1 [("filter_contexts", 2)] (by simp) (by simp)
  simpa using h6

/-- C10: when neither visual list is empty but no visual on either side
references any data field, the data-field component of the visuals
comparison is 0 (not 1), so the visuals sub-score collapses to 0.6 times
the type-count similarity; identical non-empty visual lists without data
fields score 0.6, not 1. -/
theorem C10_visuals_without_fields :
    (∀ vs1 vs2 : List VisualElement, vs1 ≠ [] → vs2 ≠ [] →
      (∀ v ∈ vs1, v.data_fields = []) → (∀ v ∈ vs2, v.data_fields = []) →
      fieldSimilarity vs1 vs2 = 0 ∧
      compareVisuals vs1 vs2 = 0.6 * visualTypeSimilarity vs1 vs2) ∧
    (∀ vs : List VisualElement, vs ≠ [] → (∀ v ∈ vs, v.data_fields = []) →
      compareVisuals vs vs = 0.6) := by
  have key : ∀ vs1 vs2 : List VisualElement, vs1 ≠ [] → vs2 ≠ [] →
      (∀ v ∈ vs1, v.data_fields = []) → (∀ v ∈ vs2, v.data_fields = []) →
      fieldSimilarity vs1 vs2 = 0 ∧
      compareVisuals vs1 vs2 = 0.6 * visualTypeSimilarity vs1 vs2 := by
    intro vs1 vs2 h1 h2 hf1 hf2
    have hfield : fieldSimilarity vs1 vs2 = 0 := by
      unfold fieldSimilarity
      rw [visualFields_eq_empty hf1, visualFields_eq_empty hf2]
      exact jaccardQ_empty
    refine ⟨hfield, ?_⟩
    unfold compareVisuals
    rw [if_neg (by tauto), if_neg (by tauto), hfield]
    ring
  refine ⟨key, fun vs h hf => ?_⟩
  rw [(key vs vs h h hf hf).2, visualTypeSimilarity_self h]
  norm_num

/-- C10 witness: the theorem applied to a one-visual dashboard whose
visual references no data fields. -/
theorem C10_visuals_without_fields_witness :
    fieldSimilarity [noFieldVisual] [noFieldVisual] = 0 ∧
    compareVisuals [noFieldVisual] [noFieldVisual] = 0.6 := by
  have h := C10_visuals_without_fields
  have hf : ∀ v ∈ [noFieldVisual], v.data_fields = [] := by
    intro v hv
    rw [List.mem_singleton.mp hv]
    rfl
  exact ⟨(h.1 [noFieldVisual] [noFieldVisual] (by simp) (by simp) hf hf).1,
    h.2 [noFieldVisual] (by simp) hf⟩

/-- C7: for non-empty measure collections the measures sub-score is 0.6
times the case-insensitive name-set Jaccard plus 0.4 times the average
formula similarity over the name-matched measure pairs (0 when no names
match); on the spec's Example 1 the sub-score is exactly 0.70. -/
theorem C7_measures_subscore :
    (∀ ms1 ms2 : List DAXMeasure, ms1 ≠ [] → ms2 ≠ [] →
      compareMeasures ms1 ms2 =
        0.6 * (((measureNames ms1 ∩ measureNames ms2).card : ℚ) /
          ((measureNames ms1 ∪ measureNames ms2).card : ℚ)) +
        0.4 * (if matchedFormulaSims ms1 ms2 = [] then 0
          else (matchedFormulaSims ms1 ms2).sum / (matchedFormulaSims ms1 ms2).length)) ∧
    compareMeasures [measureTotalSales] [measureTotalSales, measureAvgSales] = 0.7 := by
  have key : ∀ ms1 ms2 : List DAXMeasure, ms1 ≠ [] → ms2 ≠ [] →
      compareMeasures ms1 ms2 =
        0.6 * (((measureNames ms1 ∩ measureNames ms2).card : ℚ) /
          ((measureNames ms1 ∪ measureNames ms2).card : ℚ)) +
        0.4 * (if matchedFormulaSims ms1 ms2 = [] then 0
          else (matchedFormulaSims ms1 ms2).sum / (matchedFormulaSims ms1 ms2).length) := by
    intro ms1 ms2 h1 h2
    unfold compareMeasures
    rw [if_neg (by tauto), if_neg (by tauto)]
    have hcard : 0 < (measureNames ms1 ∪ measureNames ms2).card := by
      apply Finset.card_pos.mpr
      obtain ⟨m, hm⟩ := List.exists_mem_of_ne_nil ms1 h1
      exact ⟨lowerStr m.measure_name,
        Finset.mem_union_left _ (List.mem_toFinset.mpr (List.mem_map.mpr ⟨m, hm, rfl⟩))⟩
    unfold jaccardQ listAvg
    rw [if_pos hcard]
    ring
  refine ⟨key, ?_⟩
  rw [key [measureTotalSales] [measureTotalSales, measureAvgSales] (by simp) (by simp)]
  have hinter : (measureNames [measureTotalSales] ∩
      measureNames [measureTotalSales, measureAvgSales]).card = 1 := by decide
  have hunion : (measureNames [measureTotalSales] ∪
      measureNames [measureTotalSales, measureAvgSales]).card = 2 := by decide
  have hfilter : ([measureTotalSales, measureAvgSales].filter fun m2 =>
      lowerStr measureTotalSales.measure_name == lowerStr m2.measure_name) =
      [measureTotalSales] := by decide
  have hsims : matchedFormulaSims [measureTotalSales] [measureTotalSales, measureAvgSales] =
      [(compare_measures measureTotalSales measureTotalSales).overall_similarity] := by
    unfold matchedFormulaSims
    rw [List.flatMap_cons, List.flatMap_nil, hfilter]
    simp
  rw [hinter, hunion, hsims, compare_measures_overall_self]
  norm_num

/-- C7 witness: the general part of the theorem applied to two concrete
non-empty measure lists. -/
theorem C7_measures_subscore_witness :
    compareMeasures [measureTotalSales] [measureAvgSales] =
      0.6 * (((measureNames [measureTotalSales] ∩ measureNames [measureAvgSales]).card : ℚ) /
        ((measureNames [measureTotalSales] ∪ measureNames [measureAvgSales]).card : ℚ)) +
      0.4 * (if matchedFormulaSims [measureTotalSales] [measureAvgSales] = [] then 0
        else (matchedFormulaSims [measureTotalSales] [measureAvgSales]).sum /
          (matchedFormulaSims [measureTotalSales] [measureAvgSales]).length) :=
  C7_measures_subscore.1 [measureTotalSales] [measureAvgSales] (by simp) (by simp)

/-- C3: the emitted consolidation groups are exactly the maximal connected
components of size at least 2 of the graph whose edges are the scored
pairs with total at or above the review threshold 0.70: every group has
at least two members, any two members of one group are joined by a chain
of such edges (soundness), each group is closed under such edges, no edge
joins two distinct groups (maximality), and every profile whose component
has a second member lands in some emitted group (completeness). -/
theorem C3_groups_are_components (profiles : List DashboardProfile)
    (scores : List SimilarityScore) :
    (∀ g ∈ consolidationGroupIds profiles scores, 2 ≤ g.card) ∧
    (∀ g ∈ consolidationGroupIds profiles scores, ∀ x ∈ g, ∀ y ∈ g, Connects scores x y) ∧
    (∀ g ∈ consolidationGroupIds profiles scores, ∀ x ∈ g, ∀ y,
      Connects scores x y → y ∈ g) ∧
    (∀ g ∈ consolidationGroupIds profiles scores,
      ∀ g' ∈ consolidationGroupIds profiles scores,
      g ≠ g' → ∀ x ∈ g, ∀ y ∈ g', ¬ EdgeRel scores x y) ∧
    (∀ p ∈ profiles,
      (∃ q, q ≠ p.dashboard_id ∧ Connects scores p.dashboard_id q) →
      ∃ g ∈ consolidationGroupIds profiles scores, p.dashboard_id ∈ g) := by
  have hfuel : (nodeUniverse profiles scores).card *
      ((nodeUniverse profiles scores).card + 1) + 1 ≤ groupFuel profiles scores := by
    unfold groupFuel
    rw [pow_two]
    calc (nodeUniverse profiles scores).card * ((nodeUniverse profiles scores).card + 1) + 1
        ≤ (nodeUniverse profiles scores).card * ((nodeUniverse profiles scores).card + 1) +
          ((nodeUniverse profiles scores).card + 1) := by omega
      _ = ((nodeUniverse profiles scores).card + 1) *
          ((nodeUniverse profiles scores).card + 1) := by ring
  obtain ⟨ha, hb⟩ := groupsAux_spec hfuel profiles ∅
    (fun x hx _ _ => absurd hx (Finset.not_mem_empty x))
    (fun p hp => Finset.mem_union_left _ (Finset.mem_union_left _
      (List.mem_toFinset.mpr (List.mem_map.mpr ⟨p, hp, rfl⟩))))
  have hchar : ∀ g ∈ consolidationGroupIds profiles scores, ∀ x ∈ g, ∀ y,
      y ∈ g ↔ Connects scores x y := by
    intro g hg x hx y
    obtain ⟨x₀, hx₀⟩ := (ha g hg).2
    have hx0x : Connects scores x₀ x := (hx₀ x).mp hx
    constructor
    · intro hy
      exact Connects_trans (Connects_symm hx0x) ((hx₀ y).mp hy)
    · intro hy
      exact (hx₀ y).mpr (Connects_trans hx0x hy)
  refine ⟨fun g hg => (ha g hg).1, ?_, ?_, ?_, ?_⟩
  · intro g hg x hx y hy
    exact (hchar g hg x hx y).mp hy
  · intro g hg x hx y hy
    exact (hchar g hg x hx y).mpr hy
  · intro g hg g' hg' hne x hx y hy hedge
    apply hne
    have hyg : y ∈ g := (hchar g hg x hx y).mpr (Relation.ReflTransGen.single hedge)
    apply Finset.ext
    intro z
    rw [hchar g hg y hyg z, hchar g' hg' y hy z]
  · intro p hp hex
    exact hb p hp (Finset.not_mem_empty _) hex

/-- C3 witness: on the spec's Example 2 (pairwise totals A-B 0.90,
B-C 0.75, A-C 0.40), dashboard A lands in an emitted group. -/
theorem C3_groups_are_components_witness :
    ∃ g ∈ consolidationGroupIds exampleProfiles exampleScores, "A" ∈ g := by
  have h := (C3_groups_are_components exampleProfiles exampleScores).2.2.2.2
  apply h (bareProfile "A") (by simp [exampleProfiles])
  refine ⟨"B", by decide, Relation.ReflTransGen.single ?_⟩
  refine ⟨bareScore "A" "B" 0.9, by simp [exampleScores], ?_, Or.inl ⟨rfl, rfl⟩⟩
  show review_threshold ≤ (bareScore "A" "B" 0.9).total_score
  norm_num [review_threshold, bareScore]

/-- C6: for every pair of dashboard profiles compared under the default
weights, each of the five breakdown sub-scores and the total score lies
in the closed interval [0, 1]. -/
theorem C6_scores_in_unit_interval (d1 d2 : DashboardProfile) :
    (0 ≤ (compare_dashboards d1 d2 default_weights).breakdown.measures_score ∧
      (compare_dashboards d1 d2 default_weights).breakdown.measures_score ≤ 1) ∧
    (0 ≤ (compare_dashboards d1 d2 default_weights).breakdown.visuals_score ∧
      (compare_dashboards d1 d2 default_weights).breakdown.visuals_score ≤ 1) ∧
    (0 ≤ (compare_dashboards d1 d2 default_weights).breakdown.data_model_score ∧
      (compare_dashboards d1 d2 default_weights).breakdown.data_model_score ≤ 1) ∧
    (0 ≤ (compare_dashboards d1 d2 default_weights).breakdown.layout_score ∧
      (compare_dashboards d1 d2 default_weights).breakdown.layout_score ≤ 1) ∧
    (0 ≤ (compare_dashboards d1 d2 default_weights).breakdown.filters_score ∧
      (compare_dashboards d1 d2 default_weights).breakdown.filters_score ≤ 1) ∧
    (0 ≤ (compare_dashboards d1 d2 default_weights).total_score ∧
      (compare_dashboards d1 d2 default_weights).total_score ≤ 1) := by
  have hm := compareMeasures_bounds d1.measures d2.measures
  have hv := compareVisuals_bounds d1.visual_elements d2.visual_elements
  have hd := compareDataModel_bounds d1.tables d2.tables
  have hl := compareLayout_bounds d1.visual_elements d2.visual_elements
  have hf := compareFilters_bounds d1.visual_elements d2.visual_elements
  refine ⟨hm, hv, hd, hl, hf, ?_⟩
  show 0 ≤ compareMeasures d1.measures d2.measures * (0.4 : ℚ) +
      compareVisuals d1.visual_elements d2.visual_elements * 0.3 +
      compareDataModel d1.tables d2.tables * 0.2 +
      compareLayout d1.visual_elements d2.visual_elements * 0.1 ∧
    compareMeasures d1.measures d2.measures * (0.4 : ℚ) +
      compareVisuals d1.visual_elements d2.visual_elements * 0.3 +
      compareDataModel d1.tables d2.tables * 0.2 +
      compareLayout d1.visual_elements d2.visual_elements * 0.1 ≤ 1
  constructor
  · have h1 := mul_nonneg hm.1 (by norm_num : (0 : ℚ) ≤ 0.4)
    have h2 := mul_nonneg hv.1 (by norm_num : (0 : ℚ) ≤ 0.3)
    have h3 := mul_nonneg hd.1 (by norm_num : (0 : ℚ) ≤ 0.2)
    have h4 := mul_nonneg hl.1 (by norm_num : (0 : ℚ) ≤ 0.1)
    linarith
  · have h1 := mul_le_of_le_one_left (by norm_num : (0 : ℚ) ≤ 0.4) hm.2
    have h2 := mul_le_of_le_one_left (by norm_num : (0 : ℚ) ≤ 0.3) hv.2
    have h3 := mul_le_of_le_one_left (by norm_num : (0 : ℚ) ≤ 0.2) hd.2
    have h4 := mul_le_of_le_one_left (by norm_num : (0 : ℚ) ≤ 0.1) hl.2
    linarith

/-- C4: comparison is symmetric — each of the five breakdown sub-scores
(measures, visuals, data_model, layout, filters) and the total score of
compare(A, B) under the default weights equal the corresponding values of
compare(B, A). -/
theorem C4_comparison_symmetric (d1 d2 : DashboardProfile) :
    (compare_dashboards d1 d2 default_weights).breakdown.measures_score =
      (compare_dashboards d2 d1 default_weights).breakdown.measures_score ∧
    (compare_dashboards d1 d2 default_weights).breakdown.visuals_score =
      (compare_dashboards d2 d1 default_weights).breakdown.visuals_score ∧
    (compare_dashboards d1 d2 default_weights).breakdown.data_model_score =
      (compare_dashboards d2 d1 default_weights).breakdown.data_model_score ∧
    (compare_dashboards d1 d2 default_weights).breakdown.layout_score =
      (compare_dashboards d2 d1 default_weights).breakdown.layout_score ∧
    (compare_dashboards d1 d2 default_weights).breakdown.filters_score =
      (compare_dashboards d2 d1 default_weights).breakdown.filters_score ∧
    (compare_dashboards d1 d2 default_weights).total_score =
      (compare_dashboards d2 d1 default_weights).total_score := by
  refine ⟨compareMeasures_comm _ _, compareVisuals_comm _ _, compareDataModel_comm _ _,
    compareLayout_comm _ _, compareFilters_comm _ _, ?_⟩
  show compareMeasures d1.measures d2.measures * (0.4 : ℚ) +
      compareVisuals d1.visual_elements d2.visual_elements * 0.3 +
      compareDataModel d1.tables d2.tables * 0.2 +
      compareLayout d1.visual_elements d2.visual_elements * 0.1 =
    compareMeasures d2.measures d1.measures * (0.4 : ℚ) +
      compareVisuals d2.visual_elements d1.visual_elements * 0.3 +
      compareDataModel d2.tables d1.tables * 0.2 +
      compareLayout d2.visual_elements d1.visual_elements * 0.1
  rw [compareMeasures_comm, compareVisuals_comm, compareDataModel_comm, compareLayout_comm]

/-- C5 counterexample: the non-degenerate profile with one visual that
references no data fields (and nothing else) self-compares to total
22/25 = 0.88, not 1.0 — the data-field component of the visuals
comparison is 0 when no fields exist. -/
theorem C5_counterexample_self_total :
    noFieldProfile.visual_elements ≠ [] ∧
    (compare_dashboards noFieldProfile noFieldProfile default_weights).total_score = 22/25 ∧
    (compare_dashboards noFieldProfile noFieldProfile default_weights).total_score ≠ 1 := by
  have hvis : compareVisuals [noFieldVisual] [noFieldVisual] = 0.6 := by
    unfold compareVisuals
    rw [if_neg (by simp), if_neg (by simp), visualTypeSimilarity_self (by simp)]
    have hfield : fieldSimilarity [noFieldVisual] [noFieldVisual] = 0 := by
      unfold fieldSimilarity
      rw [visualFields_eq_empty (fun v hv => by rw [List.mem_singleton.mp hv]; rfl)]
      exact jaccardQ_empty
    rw [hfield]
    norm_num
  have htot : (compare_dashboards noFieldProfile noFieldProfile default_weights).total_score
      = 22/25 := by
    show compareMeasures [] [] * (0.4 : ℚ) +
        compareVisuals [noFieldVisual] [noFieldVisual] * 0.3 +
        compareDataModel [] [] * 0.2 + compareLayout [noFieldVisual] [noFieldVisual] * 0.1
      = 22/25
    rw [hvis, compareDataModel_self, compareLayout_self]
    norm_num [compareMeasures]
  exact ⟨by simp [noFieldProfile], htot, by rw [htot]; norm_num⟩

/-- C5 (amended): self-comparison under the default weights yields
total_score 1.0 for every profile whose measures carry pairwise distinct
case-insensitive names and whose visual list, when non-empty, references
at least one data field.  (The original claim fails for profiles whose
visuals reference no data fields, and for duplicate measure names with
different formulas; non-degeneracy is not actually needed.) -/
theorem C5_amended_self_identity (P : DashboardProfile)
    (hnames : (P.measures.map fun m => lowerStr m.measure_name).Nodup)
    (hfields : P.visual_elements ≠ [] → ∃ v ∈ P.visual_elements, v.data_fields ≠ []) :
    (compare_dashboards P P default_weights).total_score = 1 := by
  show compareMeasures P.measures P.measures * (0.4 : ℚ) +
      compareVisuals P.visual_elements P.visual_elements * 0.3 +
      compareDataModel P.tables P.tables * 0.2 +
      compareLayout P.visual_elements P.visual_elements * 0.1 = 1
  rw [compareMeasures_self hnames, compareVisuals_self hfields, compareDataModel_self,
    compareLayout_self]
  norm_num

/-- C5 witness: the amended theorem applied to a concrete profile with a
field-bearing visual, one measure and one table. -/
theorem C5_amended_self_identity_witness :
    (compare_dashboards richProfile richProfile default_weights).total_score = 1 :=
  C5_amended_self_identity richProfile (by decide) (by decide)

end PBI
